import Mathlib

/-!
Shallow embedding of the Nervus repository's loss-bookkeeping engine
(src/lib/component/loss.py), multi-head model composer (src/config/model.py)
and task/model dispatcher (src/lib/framework.py), with theorems checking the
natural-language specification against the code.

Python floats are modelled as exact rationals (ℚ); Python exceptions are
modelled with `Except`, where an error value carries the state of the object
at the moment the exception is raised (in-place mutations performed before
the raise persist in Python, so the carried state records them).
-/

deriving instance DecidableEq for Except

namespace Nervus

/-- Python exception kinds that the embedded code can raise. -/
inductive Err where
  | assertionError (msg : String)
  | attributeError (name : String)
  | keyError (k : String)
  | indexError
  | typeError
  | zeroDivisionError
  | nameError (name : String)
  | runtimeError
  | unboundLocalError
  | valueError (msg : String)
deriving Repr, DecidableEq

/-- A Python dict with string keys, modelled as an insertion-ordered
association list (Python dicts preserve insertion order). -/
abbrev Dict (α : Type) := List (String × α)

/-- Dict lookup: `d[k]`, returning `none` where Python raises `KeyError`. -/
def dget {α : Type} : Dict α → String → Option α
  | [], _ => none
  | (k', v) :: rest, k => if k' = k then some v else dget rest k

/-- Dict assignment `d[k] = v`: overwrites the existing entry in place, or
appends a new entry at the end (Python insertion-order semantics). -/
def dset {α : Type} : Dict α → String → α → Dict α
  | [], k, v => [(k, v)]
  | (k', v') :: rest, k, v =>
      if k' = k then (k, v) :: rest else (k', v') :: dset rest k v

/-- EpochLoss dataclass (loss.py lines 14-123): per-label epoch-loss history
and best-validation-loss bookkeeping.  Python's `None` defaults become
`Option.none`. -/
structure EpochLoss where
  train : List ℚ := []
  val : List ℚ := []
  best_val_loss : Option ℚ := none
  best_epoch : Option Nat := none
  update_flag : Bool := false
deriving Repr, DecidableEq

/-- EpochLoss.append_epoch_loss: `getattr(self, phase).append(new_epoch_loss)`.
Only the attributes `train` and `val` exist; any other phase string raises
`AttributeError`. -/
def EpochLoss.append_epoch_loss (e : EpochLoss) (phase : String)
    (new_epoch_loss : ℚ) : Except Err EpochLoss :=
  if phase = "train" then .ok { e with train := e.train ++ [new_epoch_loss] }
  else if phase = "val" then .ok { e with val := e.val ++ [new_epoch_loss] }
  else .error (.attributeError phase)

/-- EpochLoss.get_latest_loss: `getattr(self, phase)[-1]`; indexing an empty
list raises `IndexError`. -/
def EpochLoss.get_latest_loss (e : EpochLoss) (phase : String) : Except Err ℚ :=
  if phase = "train" then
    match e.train.getLast? with
    | some v => .ok v
    | none => .error .indexError
  else if phase = "val" then
    match e.val.getLast? with
    | some v => .ok v
    | none => .error .indexError
  else .error (.attributeError phase)

/-- EpochLoss.check_best_val_loss_epoch (loss.py lines 103-123).  At epoch 0
the latest validation loss becomes the best unconditionally and the update
flag is raised; later, a strictly smaller latest validation loss replaces the
best value and best epoch, otherwise the flag is lowered.  The stored
`best_epoch` is `epoch + 1` (1-indexed display form).  Comparing a float with
`None` (no best recorded yet at a later epoch) raises `TypeError` in
Python 3. -/
def EpochLoss.check_best_val_loss_epoch (e : EpochLoss) (epoch : Nat) :
    Except Err EpochLoss :=
  if epoch = 0 then
    match e.get_latest_loss "val" with
    | .error err => .error err
    | .ok best =>
        .ok { e with best_val_loss := some best, best_epoch := some (epoch + 1),
                     update_flag := true }
  else
    match e.get_latest_loss "val" with
    | .error err => .error err
    | .ok latest =>
        match e.best_val_loss with
        | none => .error .typeError
        | some best =>
            if latest < best then
              .ok { e with best_val_loss := some latest,
                           best_epoch := some (epoch + 1), update_flag := true }
            else
              .ok { e with update_flag := false }

/-- LossStore state (loss.py lines 126-139): per-label batch loss (initially
`None`), running accumulator, and epoch-loss history, all keyed by
`label_list + ['total']`.  The externally supplied criterion and the device
are configured by subclasses that are not part of this repository's sources;
the criterion is therefore passed as a parameter to `cal_batch_loss`. -/
structure LossStore where
  label_list : List String
  batch_loss : Dict (Option ℚ)
  running_loss : Dict ℚ
  epoch_loss : Dict EpochLoss
deriving Repr, DecidableEq

/-- LossStore._init_batch_loss: a dict with `None` for every label and for
`total`. -/
def init_batch_loss (label_list : List String) : Dict (Option ℚ) :=
  (label_list ++ ["total"]).foldl (fun d l => dset d l none) []

/-- LossStore._init_running_loss: a dict with `0.0` for every label and for
`total`. -/
def init_running_loss (label_list : List String) : Dict ℚ :=
  (label_list ++ ["total"]).foldl (fun d l => dset d l 0) []

/-- LossStore._init_epoch_loss: a dict with a fresh `EpochLoss()` for every
label and for `total`. -/
def init_epoch_loss (label_list : List String) : Dict EpochLoss :=
  (label_list ++ ["total"]).foldl (fun d l => dset d l {}) []

/-- LossStore.__init__. -/
def LossStore.init (label_list : List String) : LossStore :=
  { label_list := label_list
    batch_loss := init_batch_loss label_list
    running_loss := init_running_loss label_list
    epoch_loss := init_epoch_loss label_list }

/-- Body of the loop in LossStore.cal_running_loss (loss.py lines 187-190):
for each label, `running_loss[label] += batch_loss[label].item() * batch_size`
and then `running_loss['total'] += running_loss[label]` — the `total` key is
incremented by the label's full accumulated running value, not by the newly
added delta.  Calling `.item()` on a `None` batch loss raises
`AttributeError`; a missing dict key raises `KeyError`, carrying the state
mutated so far. -/
def cal_running_loss_loop (b : ℚ) (s : LossStore) :
    List String → Except (Err × LossStore) LossStore
  | [] => .ok s
  | label :: rest =>
      match dget s.running_loss label with
      | none => .error (.keyError label, s)
      | some r =>
          match dget s.batch_loss label with
          | none => .error (.keyError label, s)
          | some none => .error (.attributeError "item", s)
          | some (some bl) =>
              let new_r := r + bl * b
              let s1 : LossStore :=
                { s with running_loss := dset s.running_loss label new_r }
              match dget s1.running_loss "total" with
              | none => .error (.keyError "total", s1)
              | some t =>
                  cal_running_loss_loop b
                    { s1 with running_loss := dset s1.running_loss "total" (t + new_r) }
                    rest

/-- LossStore.cal_running_loss (loss.py lines 177-190): asserts that a batch
size was given, then runs the accumulation loop over `label_list`. -/
def LossStore.cal_running_loss (s : LossStore) (batch_size : Option Nat) :
    Except (Err × LossStore) LossStore :=
  match batch_size with
  | none => .error (.assertionError "Invalid batch_size: batch_size=None.", s)
  | some b => cal_running_loss_loop (b : ℚ) s s.label_list

/-- First loop of LossStore.cal_batch_loss (loss.py lines 202-205): for every
key of `labels`, evaluate the externally supplied criterion on
`(outputs[k], labels[k], period, network)` and store it in `batch_loss[k]`. -/
def cal_batch_loss_loop1 {Net : Type}
    (criterion : ℚ → ℚ → Option ℚ → Option Net → ℚ)
    (outputs labels : Dict ℚ) (period : Option ℚ) (network : Option Net)
    (s : LossStore) : List String → Except (Err × LossStore) LossStore
  | [] => .ok s
  | k :: rest =>
      match dget outputs k with
      | none => .error (.keyError k, s)
      | some o =>
          match dget labels k with
          | none => .error (.keyError k, s)
          | some lb =>
              let v := criterion o lb period network
              cal_batch_loss_loop1 criterion outputs labels period network
                { s with batch_loss := dset s.batch_loss k (some v) } rest

/-- Second loop of LossStore.cal_batch_loss (loss.py lines 207-209): sum the
just-stored per-label batch losses, starting from a zero tensor. -/
def cal_batch_loss_loop2 (s : LossStore) (acc : ℚ) :
    List String → Except (Err × LossStore) ℚ
  | [] => .ok acc
  | k :: rest =>
      match dget s.batch_loss k with
      | none => .error (.keyError k, s)
      | some none => .error (.typeError, s)
      | some (some v) => cal_batch_loss_loop2 s (acc + v) rest

/-- LossStore.cal_batch_loss (loss.py lines 194-210): store the criterion's
value per task, then set `batch_loss['total']` to the sum over the keys of
`labels`.  The method takes no phase or epoch argument. -/
def LossStore.cal_batch_loss {Net : Type} (s : LossStore)
    (criterion : ℚ → ℚ → Option ℚ → Option Net → ℚ)
    (outputs labels : Dict ℚ) (period : Option ℚ) (network : Option Net) :
    Except (Err × LossStore) LossStore :=
  match cal_batch_loss_loop1 criterion outputs labels period network s
      (labels.map Prod.fst) with
  | .error e => .error e
  | .ok s1 =>
      match cal_batch_loss_loop2 s1 0 (labels.map Prod.fst) with
      | .error e => .error e
      | .ok total =>
          .ok { s1 with batch_loss := dset s1.batch_loss "total" (some total) }

/-- Per-label loop of LossStore.cal_epoch_loss (loss.py lines 226-229): append
`running_loss[label] / dataset_size` to the label's history for `phase`,
accumulating the sum of the just-computed per-label epoch losses.  Division by
a zero dataset size raises `ZeroDivisionError`; an invalid phase raises
`AttributeError` inside `append_epoch_loss`. -/
def cal_epoch_loss_loop (phase : String) (ds : Nat) (s : LossStore) (acc : ℚ) :
    List String → Except (Err × LossStore) (LossStore × ℚ)
  | [] => .ok (s, acc)
  | label :: rest =>
      match dget s.running_loss label with
      | none => .error (.keyError label, s)
      | some r =>
          if ds = 0 then .error (.zeroDivisionError, s)
          else
            let v := r / (ds : ℚ)
            match dget s.epoch_loss label with
            | none => .error (.keyError label, s)
            | some el =>
                match el.append_epoch_loss phase v with
                | .error e => .error (e, s)
                | .ok el' =>
                    cal_epoch_loss_loop phase ds
                      { s with epoch_loss := dset s.epoch_loss label el' }
                      (acc + v) rest

/-- Best-epoch loop of LossStore.cal_epoch_loss (loss.py lines 235-237): when
the phase is `val`, run `check_best_val_loss_epoch` for every label and for
`total`. -/
def check_best_loop (epoch : Nat) (s : LossStore) :
    List String → Except (Err × LossStore) LossStore
  | [] => .ok s
  | label :: rest =>
      match dget s.epoch_loss label with
      | none => .error (.keyError label, s)
      | some el =>
          match el.check_best_val_loss_epoch epoch with
          | .error e => .error (e, s)
          | .ok el' =>
              check_best_loop epoch
                { s with epoch_loss := dset s.epoch_loss label el' } rest

/-- LossStore.cal_epoch_loss (loss.py lines 214-241): assert a dataset size
was given; append `running_loss[label] / dataset_size` per label; append the
mean across labels to the `total` history; when the phase is `val`, update the
best-epoch bookkeeping for every label and `total`; finally re-initialize
`batch_loss` and `running_loss`. -/
def LossStore.cal_epoch_loss (s : LossStore) (epoch : Nat) (phase : String)
    (dataset_size : Option Nat) : Except (Err × LossStore) LossStore :=
  match dataset_size with
  | none => .error (.assertionError "Invalid dataset_size: dataset_size=None.", s)
  | some ds =>
      match cal_epoch_loss_loop phase ds s 0 s.label_list with
      | .error e => .error e
      | .ok (s1, tot) =>
          if s.label_list.length = 0 then .error (.zeroDivisionError, s1)
          else
            let tot2 := tot / (s.label_list.length : ℚ)
            match dget s1.epoch_loss "total" with
            | none => .error (.keyError "total", s1)
            | some el =>
                match el.append_epoch_loss phase tot2 with
                | .error e => .error (e, s1)
                | .ok el' =>
                    let s2 : LossStore :=
                      { s1 with epoch_loss := dset s1.epoch_loss "total" el' }
                    match (if phase = "val" then
                            check_best_loop epoch s2 (s.label_list ++ ["total"])
                          else .ok s2) with
                    | .error e => .error e
                    | .ok s3 =>
                        .ok { s3 with
                                batch_loss := init_batch_loss s3.label_list
                                running_loss := init_running_loss s3.label_list }

/-- Reading the newest epoch loss of a label for a phase, as done by
LossMixin.print_epoch_loss: `epoch_loss[label].get_latest_loss(phase)`. -/
def latest_epoch_loss (s : LossStore) (label : String) (phase : String) :
    Except Err ℚ :=
  match dget s.epoch_loss label with
  | none => .error (.keyError label)
  | some e => e.get_latest_loss phase

/-- The newest epoch losses of every label and of `total`, for one phase. -/
def epoch_report (s : LossStore) (phase : String) : Except Err (List ℚ) :=
  (s.label_list ++ ["total"]).mapM (fun l => latest_epoch_loss s l phase)

/-- A criterion that hands back the supplied per-task batch-loss value: used
to drive the engine with externally chosen per-batch per-task losses, as the
spec's scenarios do.  The criterion is an external collaborator
(`self.criterion` is set outside this repository's sources). -/
def crit_supplied : ℚ → ℚ → Option ℚ → Option Unit → ℚ := fun o _ _ _ => o

/-- One batch step of the engine: `cal_batch_loss` with supplied per-task
losses followed by `cal_running_loss` with the batch size. -/
def run_batch_step (s : LossStore) (bl : Dict ℚ) (bs : Nat) :
    Except (Err × LossStore) LossStore :=
  match s.cal_batch_loss crit_supplied bl bl none none with
  | .error e => .error e
  | .ok s1 => s1.cal_running_loss (some bs)

/-- A sequence of batch steps (one epoch's worth of batches). -/
def run_batches (s : LossStore) :
    List (Dict ℚ × Nat) → Except (Err × LossStore) LossStore
  | [] => .ok s
  | (bl, bs) :: rest =>
      match run_batch_step s bl bs with
      | .error e => .error e
      | .ok s1 => run_batches s1 rest

/-- One validation epoch's effect on a single EpochLoss cell, as performed by
cal_epoch_loss for phase `val`: append the new validation loss, then check
whether it is the best. -/
def valEpochStep (e : EpochLoss) (epoch : Nat) (loss : ℚ) :
    Except Err EpochLoss :=
  match e.append_epoch_loss "val" loss with
  | .error err => .error err
  | .ok e' => e'.check_best_val_loss_epoch epoch

/-! ## Dictionary lemmas -/

theorem dget_dset {α : Type} (d : Dict α) (k : String) (v : α) :
    dget (dset d k v) k = some v := by
  induction d with
  | nil => simp [dget, dset]
  | cons hd tl ih =>
      obtain ⟨k', v'⟩ := hd
      by_cases h : k' = k <;> simp [dget, dset, h, ih]

theorem dget_dset_ne {α : Type} (d : Dict α) (k k' : String) (v : α)
    (h : k ≠ k') : dget (dset d k v) k' = dget d k' := by
  induction d with
  | nil => simp [dget, dset, h]
  | cons hd tl ih =>
      obtain ⟨k0, v0⟩ := hd
      by_cases h0 : k0 = k
      · subst h0
        simp [dget, dset, h]
      · simp only [dset, if_neg h0]
        by_cases h1 : k0 = k' <;> simp [dget, h1, ih]

/-! ## C1: best-epoch tracking -/

/-- C1.  EpochLoss.check_best_val_loss_epoch: at epoch 0 the newest
validation loss is unconditionally recorded as best (flag set, stored best
epoch is the 1-indexed `epoch + 1`); at any later epoch a strictly smaller
newest validation loss replaces the best value and best epoch and sets the
flag, anything else clears the flag.  For the validation-loss sequence
[0.9, 0.5, 0.6, 0.5] over epochs 0-3 the flag is set exactly after epochs 0
and 1 and cleared after epochs 2 and 3, the best value is 0.5 and the stored
best epoch is 2 (epoch 1 in 0-indexed form). -/
theorem c1_best_epoch_tracking :
    (∀ (e : EpochLoss) (v : ℚ), e.val.getLast? = some v →
        e.check_best_val_loss_epoch 0 =
          .ok { e with best_val_loss := some v, best_epoch := some 1,
                       update_flag := true }) ∧
    (∀ (e : EpochLoss) (epoch : Nat) (v b : ℚ), epoch ≠ 0 →
        e.val.getLast? = some v → e.best_val_loss = some b →
        e.check_best_val_loss_epoch epoch =
          .ok (if v < b then
                 { e with best_val_loss := some v,
                          best_epoch := some (epoch + 1), update_flag := true }
               else { e with update_flag := false })) ∧
    (valEpochStep {} 0 (9/10) =
        .ok { train := [], val := [9/10], best_val_loss := some (9/10),
              best_epoch := some 1, update_flag := true } ∧
     valEpochStep { train := [], val := [9/10], best_val_loss := some (9/10),
                    best_epoch := some 1, update_flag := true } 1 (1/2) =
        .ok { train := [], val := [9/10, 1/2], best_val_loss := some (1/2),
              best_epoch := some 2, update_flag := true } ∧
     valEpochStep { train := [], val := [9/10, 1/2], best_val_loss := some (1/2),
                    best_epoch := some 2, update_flag := true } 2 (3/5) =
        .ok { train := [], val := [9/10, 1/2, 3/5], best_val_loss := some (1/2),
              best_epoch := some 2, update_flag := false } ∧
     valEpochStep { train := [], val := [9/10, 1/2, 3/5], best_val_loss := some (1/2),
                    best_epoch := some 2, update_flag := false } 3 (1/2) =
        .ok { train := [], val := [9/10, 1/2, 3/5, 1/2], best_val_loss := some (1/2),
              best_epoch := some 2, update_flag := false }) := by
  refine ⟨?_, ?_, ?_, ?_, ?_, ?_⟩
  · intro e v h
    simp [EpochLoss.check_best_val_loss_epoch, EpochLoss.get_latest_loss, h]
  · intro e epoch v b hne hv hb
    have hlatest : e.get_latest_loss "val" = .ok v := by
      simp [EpochLoss.get_latest_loss, hv]
    by_cases hvb : v < b <;>
      simp [EpochLoss.check_best_val_loss_epoch, if_neg hne, hlatest, hb, hvb]
  all_goals
    simp [valEpochStep, EpochLoss.append_epoch_loss,
      EpochLoss.check_best_val_loss_epoch, EpochLoss.get_latest_loss]
  all_goals norm_num

/-- Witness for C1: the epoch-1 update of the scenario, obtained from the
second clause of the theorem at concrete inputs. -/
theorem c1_witness :
    EpochLoss.check_best_val_loss_epoch
        { train := [], val := [9/10, 1/2], best_val_loss := some (9/10),
          best_epoch := some 1, update_flag := true } 1 =
      .ok { train := [], val := [9/10, 1/2], best_val_loss := some (1/2),
            best_epoch := some 2, update_flag := true } := by
  have h := c1_best_epoch_tracking.2.1
    { train := [], val := [9/10, 1/2], best_val_loss := some (9/10),
      best_epoch := some 1, update_flag := true } 1 (1/2) (9/10)
    (by decide) (by rfl) (by rfl)
  norm_num at h
  exact h

/-! ## C4: running-loss accumulation -/

/-- Specification of the cal_running_loss loop: each label's running loss
grows by `batch_loss[label] * batch_size`, while the `total` key grows by the
sum of the labels' full post-update accumulated values. -/
theorem cal_running_loss_loop_spec (b : ℚ) (r bl : String → ℚ) :
    ∀ (labels : List String) (s : LossStore) (t : ℚ),
      labels.Nodup → "total" ∉ labels →
      (∀ l ∈ labels, dget s.running_loss l = some (r l)) →
      (∀ l ∈ labels, dget s.batch_loss l = some (some (bl l))) →
      dget s.running_loss "total" = some t →
      ∃ s', cal_running_loss_loop b s labels = .ok s' ∧
        s'.label_list = s.label_list ∧ s'.batch_loss = s.batch_loss ∧
        s'.epoch_loss = s.epoch_loss ∧
        (∀ l ∈ labels, dget s'.running_loss l = some (r l + bl l * b)) ∧
        (∀ k, k ∉ labels → k ≠ "total" →
            dget s'.running_loss k = dget s.running_loss k) ∧
        dget s'.running_loss "total" =
          some (t + (labels.map (fun l => r l + bl l * b)).sum) := by
  intro labels
  induction labels with
  | nil =>
      intro s t _ _ _ _ ht
      exact ⟨s, rfl, rfl, rfl, rfl, by simp, fun k _ _ => rfl, by simpa using ht⟩
  | cons l rest ih =>
      intro s t hnd htot hr hbl ht
      have hlnotin : l ∉ rest := (List.nodup_cons.mp hnd).1
      have hndrest : rest.Nodup := (List.nodup_cons.mp hnd).2
      have hlne : l ≠ "total" := fun h => htot (h ▸ List.mem_cons_self l rest)
      have htotrest : "total" ∉ rest := fun h => htot (List.mem_cons_of_mem l h)
      have hrl : dget s.running_loss l = some (r l) := hr l (List.mem_cons_self l rest)
      have hbll : dget s.batch_loss l = some (some (bl l)) :=
        hbl l (List.mem_cons_self l rest)
      have ht1 : dget (dset s.running_loss l (r l + bl l * b)) "total" = some t := by
        rw [dget_dset_ne _ _ _ _ hlne]
        exact ht
      have hr2 : ∀ l' ∈ rest,
          dget (dset (dset s.running_loss l (r l + bl l * b)) "total"
            (t + (r l + bl l * b))) l' = some (r l') := by
        intro l' hl'
        have h1 : "total" ≠ l' := fun h => htotrest (h ▸ hl')
        have h2 : l ≠ l' := fun h => hlnotin (h ▸ hl')
        rw [dget_dset_ne _ _ _ _ h1, dget_dset_ne _ _ _ _ h2]
        exact hr l' (List.mem_cons_of_mem l hl')
      have ht2 : dget (dset (dset s.running_loss l (r l + bl l * b)) "total"
          (t + (r l + bl l * b))) "total" = some (t + (r l + bl l * b)) :=
        dget_dset _ _ _
      obtain ⟨s', hloop, hlab, hbatch, hepoch, hmem, hpres, htot'⟩ :=
        ih { s with running_loss := dset (dset s.running_loss l (r l + bl l * b)) "total" (t + (r l + bl l * b)) }
          (t + (r l + bl l * b))
          hndrest htotrest hr2 (fun l' hl' => hbl l' (List.mem_cons_of_mem l hl')) ht2
      refine ⟨s', ?_, hlab, hbatch, hepoch, ?_, ?_, ?_⟩
      · simp only [cal_running_loss_loop, hrl, hbll, ht1]
        exact hloop
      · intro l' hl'
        rcases List.mem_cons.mp hl' with h | h
        · subst h
          rw [hpres l' hlnotin hlne]
          show dget (dset (dset s.running_loss l' _) "total" _) l' = _
          rw [dget_dset_ne _ _ _ _ (Ne.symm hlne), dget_dset]
        · exact hmem l' h
      · intro k hk hktot
        have hkl : l ≠ k := fun h => hk (h ▸ List.mem_cons_self l rest)
        have hkrest : k ∉ rest := fun h => hk (List.mem_cons_of_mem l h)
        rw [hpres k hkrest hktot]
        show dget (dset (dset s.running_loss l _) "total" _) k = _
        rw [dget_dset_ne _ _ _ _ (Ne.symm hktot), dget_dset_ne _ _ _ _ hkl]
      · rw [htot', List.map_cons, List.sum_cons, add_assoc]

/-- Counterexample to C4 as stated.  A freshly initialized two-task engine
processes one batch (per-task batch losses 1 and 2, batch size 1); the claim
asserts that RunningLoss['total'] then differs from the sum over tasks of
RunningLoss[task], but in fact total = 3 = 1 + 2, the exact sum. -/
theorem c4_counterexample :
    run_batch_step (LossStore.init ["grade", "malignant"])
        [("grade", 1), ("malignant", 2)] 1 =
      .ok { label_list := ["grade", "malignant"]
            batch_loss := [("grade", some 1), ("malignant", some 2), ("total", some 3)]
            running_loss := [("grade", 1), ("malignant", 2), ("total", 3)]
            epoch_loss := init_epoch_loss ["grade", "malignant"] } := by
  simp [run_batch_step, LossStore.cal_batch_loss, cal_batch_loss_loop1,
    cal_batch_loss_loop2, crit_supplied, LossStore.cal_running_loss,
    cal_running_loss_loop, LossStore.init, init_batch_loss,
    init_running_loss, init_epoch_loss, dget, dset]
  norm_num

/-- C4 amended.  cal_running_loss adds `BatchLoss[task] * batch_size` to each
task's running loss and adds each task's full post-update accumulated value to
RunningLoss['total'].  Hence after the first call on a freshly initialized
store the total equals the sum over tasks of RunningLoss[task] (for any
number of tasks), but after a second call it exceeds that sum by the first
call's accumulated per-task sum: it over-counts earlier batches' accumulated
totals, for any number of tasks (including exactly one). -/
theorem c4_running_total_overcounts :
    (∀ (s : LossStore) (bs : Nat) (r bl : String → ℚ) (t : ℚ),
        s.label_list.Nodup → "total" ∉ s.label_list →
        (∀ l ∈ s.label_list, dget s.running_loss l = some (r l)) →
        (∀ l ∈ s.label_list, dget s.batch_loss l = some (some (bl l))) →
        dget s.running_loss "total" = some t →
        ∃ s', s.cal_running_loss (some bs) = .ok s' ∧
          (∀ l ∈ s.label_list,
              dget s'.running_loss l = some (r l + bl l * (bs : ℚ))) ∧
          dget s'.running_loss "total" =
            some (t + (s.label_list.map (fun l => r l + bl l * (bs : ℚ))).sum)) ∧
    (∀ u1 v1 u2 v2 : ℚ, ∀ b1 b2 : Nat,
        ∃ s', run_batches (LossStore.init ["grade", "malignant"])
            [([("grade", u1), ("malignant", v1)], b1),
             ([("grade", u2), ("malignant", v2)], b2)] = .ok s' ∧
          dget s'.running_loss "grade" = some (u1 * b1 + u2 * b2) ∧
          dget s'.running_loss "malignant" = some (v1 * b1 + v2 * b2) ∧
          dget s'.running_loss "total" =
            some (((u1 * b1 + u2 * b2) + (v1 * b1 + v2 * b2))
                    + (u1 * b1 + v1 * b1))) ∧
    (∀ u1 u2 : ℚ, ∀ b1 b2 : Nat,
        ∃ s', run_batches (LossStore.init ["solo"])
            [([("solo", u1)], b1), ([("solo", u2)], b2)] = .ok s' ∧
          dget s'.running_loss "solo" = some (u1 * b1 + u2 * b2) ∧
          dget s'.running_loss "total" =
            some ((u1 * b1 + u2 * b2) + u1 * b1)) := by
  refine ⟨?_, ?_, ?_⟩
  · intro s bs r bl t hnd htot hr hbl ht
    obtain ⟨s', hloop, _, _, _, hmem, _, htot'⟩ :=
      cal_running_loss_loop_spec (bs : ℚ) r bl s.label_list s t hnd htot hr hbl ht
    exact ⟨s', by simpa [LossStore.cal_running_loss] using hloop, hmem, htot'⟩
  · intro u1 v1 u2 v2 b1 b2
    refine ⟨_, rfl, ?_, ?_, ?_⟩ <;>
      simp [run_batches, run_batch_step, LossStore.cal_batch_loss,
        cal_batch_loss_loop1, cal_batch_loss_loop2, crit_supplied,
        LossStore.cal_running_loss, cal_running_loss_loop, LossStore.init,
        init_batch_loss, init_running_loss, init_epoch_loss, dget, dset] <;>
      ring
  · intro u1 u2 b1 b2
    refine ⟨_, rfl, ?_, ?_⟩ <;>
      simp [run_batches, run_batch_step, LossStore.cal_batch_loss,
        cal_batch_loss_loop1, cal_batch_loss_loop2, crit_supplied,
        LossStore.cal_running_loss, cal_running_loss_loop, LossStore.init,
        init_batch_loss, init_running_loss, init_epoch_loss, dget, dset] <;>
      ring

/-- Witness for C4's amended theorem: its first clause applied to a concrete
store (one task, running 5, batch loss 2, batch size 3). -/
theorem c4_witness :
    ∃ s', LossStore.cal_running_loss
        { label_list := ["grade"]
          batch_loss := [("grade", some 2), ("total", none)]
          running_loss := [("grade", 5), ("total", 5)]
          epoch_loss := init_epoch_loss ["grade"] } (some 3) = .ok s' ∧
      (∀ l ∈ ["grade"], dget s'.running_loss l =
          some ((fun _ => (5 : ℚ)) l + (fun _ => (2 : ℚ)) l * ((3 : Nat) : ℚ))) ∧
      dget s'.running_loss "total" =
        some (5 + ((["grade"].map
          (fun l => (fun _ => (5 : ℚ)) l + (fun _ => (2 : ℚ)) l * ((3 : Nat) : ℚ)))).sum) := by
  exact c4_running_total_overcounts.1
    { label_list := ["grade"]
      batch_loss := [("grade", some 2), ("total", none)]
      running_loss := [("grade", 5), ("total", 5)]
      epoch_loss := init_epoch_loss ["grade"] } 3
    (fun _ => 5) (fun _ => 2) 5 (by decide) (by decide)
    (by intro l hl; simp at hl; subst hl; rfl)
    (by intro l hl; simp at hl; subst hl; rfl) (by rfl)

/-! ## C6: batch step -/

/-- Specification of the first cal_batch_loss loop: every key of `labels`
gets its criterion value stored in `batch_loss`; nothing else changes. -/
theorem cal_batch_loss_loop1_spec {Net : Type}
    (criterion : ℚ → ℚ → Option ℚ → Option Net → ℚ)
    (outputs labels : Dict ℚ) (period : Option ℚ) (network : Option Net)
    (o lb : String → ℚ) :
    ∀ (ks : List String) (s : LossStore),
      (∀ k ∈ ks, dget outputs k = some (o k)) →
      (∀ k ∈ ks, dget labels k = some (lb k)) →
      ∃ s', cal_batch_loss_loop1 criterion outputs labels period network s ks
          = .ok s' ∧
        s'.label_list = s.label_list ∧ s'.running_loss = s.running_loss ∧
        s'.epoch_loss = s.epoch_loss ∧
        (∀ k, k ∉ ks → dget s'.batch_loss k = dget s.batch_loss k) ∧
        (∀ k ∈ ks, dget s'.batch_loss k =
            some (some (criterion (o k) (lb k) period network))) := by
  intro ks
  induction ks with
  | nil =>
      intro s _ _
      exact ⟨s, rfl, rfl, rfl, rfl, fun k _ => rfl, by simp⟩
  | cons k rest ih =>
      intro s ho hlb
      have hok : dget outputs k = some (o k) := ho k (List.mem_cons_self k rest)
      have hlbk : dget labels k = some (lb k) := hlb k (List.mem_cons_self k rest)
      obtain ⟨s', hloop, hlab, hrun, hepoch, hpres, hmem⟩ :=
        ih { s with batch_loss := dset s.batch_loss k (some (criterion (o k) (lb k) period network)) }
          (fun k' hk' => ho k' (List.mem_cons_of_mem k hk'))
          (fun k' hk' => hlb k' (List.mem_cons_of_mem k hk'))
      refine ⟨s', ?_, hlab, hrun, hepoch, ?_, ?_⟩
      · simp only [cal_batch_loss_loop1, hok, hlbk]
        exact hloop
      · intro k' hk'
        have h1 : k' ∉ rest := fun h => hk' (List.mem_cons_of_mem k h)
        have h2 : k ≠ k' := fun h => hk' (h ▸ List.mem_cons_self k rest)
        rw [hpres k' h1]
        show dget (dset s.batch_loss k _) k' = _
        rw [dget_dset_ne _ _ _ _ h2]
      · intro k' hk'
        rcases List.mem_cons.mp hk' with h | h
        · subst h
          by_cases hin : k' ∈ rest
          · exact hmem k' hin
          · rw [hpres k' hin]
            show dget (dset s.batch_loss k' _) k' = _
            rw [dget_dset]
        · exact hmem k' h

/-- Specification of the second cal_batch_loss loop: it returns the running
sum of the stored per-key batch losses. -/
theorem cal_batch_loss_loop2_spec (f : String → ℚ) :
    ∀ (ks : List String) (s : LossStore) (acc : ℚ),
      (∀ k ∈ ks, dget s.batch_loss k = some (some (f k))) →
      cal_batch_loss_loop2 s acc ks = .ok (acc + (ks.map f).sum) := by
  intro ks
  induction ks with
  | nil =>
      intro s acc _
      simp [cal_batch_loss_loop2]
  | cons k rest ih =>
      intro s acc h
      have hk : dget s.batch_loss k = some (some (f k)) :=
        h k (List.mem_cons_self k rest)
      have := ih s (acc + f k) (fun k' hk' => h k' (List.mem_cons_of_mem k hk'))
      simp only [cal_batch_loss_loop2, hk, this, List.map_cons, List.sum_cons]
      rw [add_assoc]

/-- C6.  LossStore.cal_batch_loss: for every key of the supplied `labels`
mapping (the TaskSet's tasks), the stored batch loss equals the externally
supplied criterion applied to that task's prediction, label, the optional
elapsed-time period and the optional network; afterwards `batch_loss['total']`
is the sum of the per-task values.  The operation takes no phase or epoch
argument, so it is the same for training and validation batches, and it
leaves `running_loss` and `epoch_loss` untouched. -/
theorem c6_cal_batch_loss :
    ∀ {Net : Type} (s : LossStore)
      (criterion : ℚ → ℚ → Option ℚ → Option Net → ℚ)
      (outputs labels : Dict ℚ) (period : Option ℚ) (network : Option Net)
      (o lb : String → ℚ),
      (∀ k ∈ labels.map Prod.fst, dget outputs k = some (o k)) →
      (∀ k ∈ labels.map Prod.fst, dget labels k = some (lb k)) →
      "total" ∉ labels.map Prod.fst →
      ∃ s', s.cal_batch_loss criterion outputs labels period network = .ok s' ∧
        s'.label_list = s.label_list ∧ s'.running_loss = s.running_loss ∧
        s'.epoch_loss = s.epoch_loss ∧
        (∀ k ∈ labels.map Prod.fst, dget s'.batch_loss k =
            some (some (criterion (o k) (lb k) period network))) ∧
        dget s'.batch_loss "total" =
          some (some (((labels.map Prod.fst).map
            (fun k => criterion (o k) (lb k) period network)).sum)) := by
  intro Net s criterion outputs labels period network o lb ho hlb htot
  obtain ⟨s1, hloop1, hlab, hrun, hepoch, hpres, hmem⟩ :=
    cal_batch_loss_loop1_spec criterion outputs labels period network o lb
      (labels.map Prod.fst) s ho hlb
  have hloop2 := cal_batch_loss_loop2_spec
    (fun k => criterion (o k) (lb k) period network) (labels.map Prod.fst) s1 0 hmem
  refine ⟨{ s1 with batch_loss := dset s1.batch_loss "total" (some (0 + ((labels.map Prod.fst).map (fun k => criterion (o k) (lb k) period network)).sum)) },
    ?_, hlab, hrun, hepoch, ?_, ?_⟩
  · simp only [LossStore.cal_batch_loss, hloop1, hloop2]
  · intro k hk
    have hne : "total" ≠ k := fun h => htot (h ▸ hk)
    show dget (dset s1.batch_loss "total" _) k = _
    rw [dget_dset_ne _ _ _ _ hne]
    exact hmem k hk
  · show dget (dset s1.batch_loss "total" _) "total" = _
    rw [dget_dset, zero_add]

/-- Witness for C6: the batch step of a one-task engine with prediction 7,
label 10 and the loss-echoing criterion, via the theorem at concrete
inputs. -/
theorem c6_witness :
    ∃ s', LossStore.cal_batch_loss (LossStore.init ["grade"]) crit_supplied
        [("grade", 7)] [("grade", 10)] none none = .ok s' ∧
      s'.label_list = (LossStore.init ["grade"]).label_list ∧
      s'.running_loss = (LossStore.init ["grade"]).running_loss ∧
      s'.epoch_loss = (LossStore.init ["grade"]).epoch_loss ∧
      (∀ k ∈ ([("grade", (10 : ℚ))] : Dict ℚ).map Prod.fst,
          dget s'.batch_loss k =
            some (some (crit_supplied ((fun _ => (7 : ℚ)) k)
              ((fun _ => (10 : ℚ)) k) none none))) ∧
      dget s'.batch_loss "total" =
        some (some (((([("grade", (10 : ℚ))] : Dict ℚ).map Prod.fst).map
          (fun k => crit_supplied ((fun _ => (7 : ℚ)) k)
            ((fun _ => (10 : ℚ)) k) none none)).sum)) := by
  exact c6_cal_batch_loss (LossStore.init ["grade"]) crit_supplied
    [("grade", 7)] [("grade", 10)] none none (fun _ => 7) (fun _ => 10)
    (by intro k hk; simp at hk; subst hk; rfl)
    (by intro k hk; simp at hk; subst hk; rfl)
    (by decide)

/-! ## C2: epoch finalization -/

/-- Appending an epoch loss for a valid phase succeeds and makes the appended
value the newest loss of that phase. -/
theorem append_epoch_loss_ok (e : EpochLoss) (phase : String) (v : ℚ)
    (h : phase = "train" ∨ phase = "val") :
    ∃ e', e.append_epoch_loss phase v = .ok e' ∧
      e'.get_latest_loss phase = .ok v ∧
      e'.best_val_loss = e.best_val_loss := by
  rcases h with h | h <;> subst h <;>
    exact ⟨_, rfl, by simp [EpochLoss.append_epoch_loss, EpochLoss.get_latest_loss], rfl⟩

/-- check_best_val_loss_epoch never changes the train or val histories. -/
theorem check_best_preserves_histories (e : EpochLoss) (epoch : Nat)
    (e' : EpochLoss) (h : e.check_best_val_loss_epoch epoch = .ok e') :
    e'.train = e.train ∧ e'.val = e.val := by
  unfold EpochLoss.check_best_val_loss_epoch at h
  by_cases h0 : epoch = 0
  · rw [if_pos h0] at h
    cases hg : e.get_latest_loss "val" <;> simp only [hg] at h
    · cases h
    · cases h
      exact ⟨rfl, rfl⟩
  · rw [if_neg h0] at h
    cases hg : e.get_latest_loss "val" <;> simp only [hg] at h
    · cases h
    · rename_i latest
      cases hb : e.best_val_loss <;> simp only [hb] at h
      · cases h
      · rename_i best
        by_cases hlt : latest < best
        · rw [if_pos hlt] at h
          cases h
          exact ⟨rfl, rfl⟩
        · rw [if_neg hlt] at h
          cases h
          exact ⟨rfl, rfl⟩

/-- get_latest_loss only looks at the train and val histories. -/
theorem get_latest_congr (e e' : EpochLoss) (h1 : e'.train = e.train)
    (h2 : e'.val = e.val) (ph : String) :
    e'.get_latest_loss ph = e.get_latest_loss ph := by
  simp [EpochLoss.get_latest_loss, h1, h2]

/-- The best-epoch loop mutates only best-tracking fields: every label's
newest train/val losses are unchanged. -/
theorem check_best_loop_preserves_latest (epoch : Nat) :
    ∀ (ks : List String) (s s3 : LossStore),
      check_best_loop epoch s ks = .ok s3 →
      s3.label_list = s.label_list ∧ s3.batch_loss = s.batch_loss ∧
      s3.running_loss = s.running_loss ∧
      ∀ k ph, latest_epoch_loss s3 k ph = latest_epoch_loss s k ph := by
  intro ks
  induction ks with
  | nil =>
      intro s s3 h
      cases h
      exact ⟨rfl, rfl, rfl, fun _ _ => rfl⟩
  | cons l rest ih =>
      intro s s3 h
      rw [check_best_loop] at h
      cases hd : dget s.epoch_loss l <;> simp only [hd] at h
      · cases h
      case some el =>
        cases hc : el.check_best_val_loss_epoch epoch <;> simp only [hc] at h
        · cases h
        case ok el' =>
          obtain ⟨hlab, hbatch, hrun, hlat⟩ := ih _ _ h
          refine ⟨hlab, hbatch, hrun, fun k ph => ?_⟩
          rw [hlat k ph]
          unfold latest_epoch_loss
          by_cases hkl : l = k
          · subst hkl
            show (match dget (dset s.epoch_loss l el') l with
                  | none => Except.error (Err.keyError l)
                  | some e => e.get_latest_loss ph) = _
            rw [dget_dset, hd]
            obtain ⟨ht, hv⟩ := check_best_preserves_histories el epoch el' hc
            exact get_latest_congr el el' ht hv ph
          · show (match dget (dset s.epoch_loss l el') k with
                  | none => Except.error (Err.keyError k)
                  | some e => e.get_latest_loss ph) = _
            rw [dget_dset_ne _ _ _ _ hkl]

/-- Specification of the per-label loop of cal_epoch_loss: it appends
`running_loss[label] / dataset_size` to each label's history for the phase
and returns the accumulated sum of the appended values. -/
theorem cal_epoch_loss_loop_spec (phase : String) (ds : Nat) (r : String → ℚ)
    (hph : phase = "train" ∨ phase = "val") (hds : ds ≠ 0) :
    ∀ (labels : List String) (s : LossStore) (acc : ℚ),
      (∀ l ∈ labels, dget s.running_loss l = some (r l)) →
      (∀ l ∈ labels, ∃ e, dget s.epoch_loss l = some e) →
      ∃ s1, cal_epoch_loss_loop phase ds s acc labels =
          .ok (s1, acc + (labels.map (fun l => r l / (ds : ℚ))).sum) ∧
        s1.label_list = s.label_list ∧ s1.batch_loss = s.batch_loss ∧
        s1.running_loss = s.running_loss ∧
        (∀ k, k ∉ labels → dget s1.epoch_loss k = dget s.epoch_loss k) ∧
        (∀ l ∈ labels, ∃ e, dget s1.epoch_loss l = some e ∧
            e.get_latest_loss phase = .ok (r l / (ds : ℚ))) := by
  intro labels
  induction labels with
  | nil =>
      intro s acc _ _
      exact ⟨s, by simp [cal_epoch_loss_loop], rfl, rfl, rfl, fun _ _ => rfl, by simp⟩
  | cons l rest ih =>
      intro s acc hr he
      have hrl : dget s.running_loss l = some (r l) := hr l (List.mem_cons_self l rest)
      obtain ⟨el, hel⟩ := he l (List.mem_cons_self l rest)
      obtain ⟨el', happ, hlat, _⟩ := append_epoch_loss_ok el phase (r l / (ds : ℚ)) hph
      have hr2 : ∀ l' ∈ rest,
          dget ({ s with epoch_loss := dset s.epoch_loss l el' } : LossStore).running_loss l'
            = some (r l') :=
        fun l' hl' => hr l' (List.mem_cons_of_mem l hl')
      have he2 : ∀ l' ∈ rest,
          ∃ e, dget ({ s with epoch_loss := dset s.epoch_loss l el' } : LossStore).epoch_loss l'
            = some e := by
        intro l' hl'
        by_cases hll : l = l'
        · subst hll
          exact ⟨el', dget_dset _ _ _⟩
        · rw [show ({ s with epoch_loss := dset s.epoch_loss l el' } : LossStore).epoch_loss
              = dset s.epoch_loss l el' from rfl, dget_dset_ne _ _ _ _ hll]
          exact he l' (List.mem_cons_of_mem l hl')
      obtain ⟨s1, hloop, hlab, hbatch, hrun, hpres, hmem⟩ :=
        ih { s with epoch_loss := dset s.epoch_loss l el' } (acc + r l / (ds : ℚ)) hr2 he2
      refine ⟨s1, ?_, hlab, hbatch, hrun, ?_, ?_⟩
      · simp only [cal_epoch_loss_loop, hrl, if_neg hds, hel, happ, hloop,
          List.map_cons, List.sum_cons]
        rw [add_assoc]
      · intro k hk
        have h1 : k ∉ rest := fun h => hk (List.mem_cons_of_mem l h)
        have h2 : l ≠ k := fun h => hk (h ▸ List.mem_cons_self l rest)
        rw [hpres k h1]
        show dget (dset s.epoch_loss l el') k = _
        rw [dget_dset_ne _ _ _ _ h2]
      · intro l' hl'
        rcases List.mem_cons.mp hl' with h | h
        · subst h
          by_cases hin : l' ∈ rest
          · exact hmem l' hin
          · refine ⟨el', ?_, hlat⟩
            rw [hpres l' hin]
            show dget (dset s.epoch_loss l' el') l' = _
            exact dget_dset _ _ _
        · exact hmem l' h

/-- C2.  LossStore.cal_epoch_loss: every successful call appends
`RunningLoss[task] / dataset_size` to each task's history for the phase and
appends the arithmetic mean of those per-task values to the `total` history.
Consequently, for TaskSet {grade, malignant} with one epoch of batches of
sizes 4 and 6 and dataset size 10, each task's epoch loss is the
batch-size-weighted mean of its per-batch losses and the total epoch loss is
the arithmetic mean of the two per-task epoch losses. -/
theorem c2_epoch_finalization :
    (∀ (s s' : LossStore) (epoch : Nat) (phase : String) (ds : Nat)
       (r : String → ℚ),
       (phase = "train" ∨ phase = "val") → ds ≠ 0 →
       (∀ l ∈ s.label_list, dget s.running_loss l = some (r l)) →
       (∀ l ∈ s.label_list, ∃ e, dget s.epoch_loss l = some e) →
       "total" ∉ s.label_list →
       s.cal_epoch_loss epoch phase (some ds) = .ok s' →
       (∀ l ∈ s.label_list, latest_epoch_loss s' l phase = .ok (r l / (ds : ℚ))) ∧
       latest_epoch_loss s' "total" phase =
         .ok ((s.label_list.map (fun l => r l / (ds : ℚ))).sum
                / (s.label_list.length : ℚ))) ∧
    (∀ g1 m1 g2 m2 : ℚ,
       ∃ t u, run_batches (LossStore.init ["grade", "malignant"])
           [([("grade", g1), ("malignant", m1)], 4),
            ([("grade", g2), ("malignant", m2)], 6)] = .ok t ∧
         t.cal_epoch_loss 0 "train" (some 10) = .ok u ∧
         latest_epoch_loss u "grade" "train" = .ok ((g1 * 4 + g2 * 6) / 10) ∧
         latest_epoch_loss u "malignant" "train" = .ok ((m1 * 4 + m2 * 6) / 10) ∧
         latest_epoch_loss u "total" "train" =
           .ok (((g1 * 4 + g2 * 6) / 10 + (m1 * 4 + m2 * 6) / 10) / 2)) := by
  constructor
  · intro s s' epoch phase ds r hph hds hr he htot h
    by_cases hnil : s.label_list = []
    · rw [LossStore.cal_epoch_loss] at h
      obtain ⟨s1, hloop, _⟩ :=
        cal_epoch_loss_loop_spec phase ds r hph hds s.label_list s 0 hr he
      simp only [hloop] at h
      rw [if_pos (by rw [hnil]; rfl)] at h
      cases h
    · have hlen : s.label_list.length ≠ 0 := fun hl => hnil (List.length_eq_zero.mp hl)
      obtain ⟨s1, hloop, hlab1, hbatch1, hrun1, hpres1, hmem1⟩ :=
        cal_epoch_loss_loop_spec phase ds r hph hds s.label_list s 0 hr he
      rw [LossStore.cal_epoch_loss] at h
      simp only [hloop] at h
      rw [if_neg hlen] at h
      cases hdt : dget s1.epoch_loss "total" <;> simp only [hdt] at h
      · cases h
      · rename_i etot
        obtain ⟨etot', happ, hlatot, _⟩ := append_epoch_loss_ok etot phase
          ((0 + (s.label_list.map (fun l => r l / (ds : ℚ))).sum)
            / (s.label_list.length : ℚ)) hph
        simp only [happ] at h
        have main : ∀ s3 : LossStore,
            (∀ k ph', latest_epoch_loss s3 k ph' =
              latest_epoch_loss
                ({ s1 with epoch_loss := dset s1.epoch_loss "total" etot' } : LossStore) k ph') →
            s' = { s3 with batch_loss := init_batch_loss s3.label_list,
                           running_loss := init_running_loss s3.label_list } →
            (∀ l ∈ s.label_list, latest_epoch_loss s' l phase = .ok (r l / (ds : ℚ))) ∧
            latest_epoch_loss s' "total" phase =
              .ok ((s.label_list.map (fun l => r l / (ds : ℚ))).sum
                     / (s.label_list.length : ℚ)) := by
          intro s3 hlat3 hs'
          have hs'lat : ∀ k ph', latest_epoch_loss s' k ph' =
              latest_epoch_loss
                ({ s1 with epoch_loss := dset s1.epoch_loss "total" etot' } : LossStore) k ph' := by
            intro k ph'
            rw [← hlat3 k ph']
            subst hs'
            rfl
          constructor
          · intro l hl
            have hlne : "total" ≠ l := fun hx => htot (hx ▸ hl)
            rw [hs'lat l phase]
            unfold latest_epoch_loss
            show (match dget (dset s1.epoch_loss "total" etot') l with
                  | none => Except.error (Err.keyError l)
                  | some e => e.get_latest_loss phase) = _
            rw [dget_dset_ne _ _ _ _ hlne]
            obtain ⟨e, hle, hlate⟩ := hmem1 l hl
            rw [hle]
            exact hlate
          · rw [hs'lat "total" phase]
            unfold latest_epoch_loss
            show (match dget (dset s1.epoch_loss "total" etot') "total" with
                  | none => Except.error (Err.keyError "total")
                  | some e => e.get_latest_loss phase) = _
            rw [dget_dset]
            show etot'.get_latest_loss phase = _
            rw [hlatot, zero_add]
        rcases hph with hph | hph
        · subst hph
          rw [if_neg (by decide : ¬("train" : String) = "val")] at h
          cases h
          exact main _ (fun _ _ => rfl) rfl
        · subst hph
          rw [if_pos rfl] at h
          cases hcb : check_best_loop epoch
              { s1 with epoch_loss := dset s1.epoch_loss "total" etot' }
              (s.label_list ++ ["total"]) <;> simp only [hcb] at h
          · cases h
          · rename_i s3
            cases h
            obtain ⟨_, _, _, hlat3⟩ := check_best_loop_preserves_latest epoch _ _ _ hcb
            exact main s3 hlat3 rfl
  · intro g1 m1 g2 m2
    refine ⟨_, _, rfl, rfl, ?_, ?_, ?_⟩ <;>
      simp [run_batches, run_batch_step, LossStore.cal_batch_loss,
        cal_batch_loss_loop1, cal_batch_loss_loop2, crit_supplied,
        LossStore.cal_running_loss, cal_running_loss_loop,
        LossStore.cal_epoch_loss, cal_epoch_loss_loop, check_best_loop,
        latest_epoch_loss, EpochLoss.append_epoch_loss, EpochLoss.get_latest_loss,
        LossStore.init, init_batch_loss, init_running_loss, init_epoch_loss,
        dget, dset] <;>
      ring

/-- Witness for C2: a one-task engine with accumulated running loss 4 and
dataset size 2 finalizes an epoch; the appended epoch losses are 4/2 = 2 for
the task and for `total`, via the theorem at concrete inputs. -/
theorem c2_witness :
    (∀ l ∈ ["grade"], latest_epoch_loss
        { label_list := ["grade"]
          batch_loss := [("grade", none), ("total", none)]
          running_loss := [("grade", 0), ("total", 0)]
          epoch_loss := [("grade", { train := [2] }), ("total", { train := [2] })] }
        l "train" = .ok ((fun _ => (4 : ℚ)) l / ((2 : Nat) : ℚ))) ∧
    latest_epoch_loss
        { label_list := ["grade"]
          batch_loss := [("grade", none), ("total", none)]
          running_loss := [("grade", 0), ("total", 0)]
          epoch_loss := [("grade", { train := [2] }), ("total", { train := [2] })] }
        "total" "train" =
      .ok ((["grade"].map (fun l => (fun _ => (4 : ℚ)) l / ((2 : Nat) : ℚ))).sum
             / ((["grade"].length : Nat) : ℚ)) := by
  refine c2_epoch_finalization.1
    { label_list := ["grade"]
      batch_loss := [("grade", some 2), ("total", some 2)]
      running_loss := [("grade", 4), ("total", 4)]
      epoch_loss := init_epoch_loss ["grade"] }
    _ 0 "train" 2 (fun _ => 4) (Or.inl rfl) (by decide) ?_ ?_ (by decide) ?_
  · intro l hl
    simp only [List.mem_singleton] at hl
    subst hl
    rfl
  · intro l hl
    simp only [List.mem_singleton] at hl
    subst hl
    exact ⟨{}, rfl⟩
  · simp [LossStore.cal_epoch_loss, cal_epoch_loss_loop, check_best_loop,
      EpochLoss.append_epoch_loss, init_batch_loss, init_running_loss,
      init_epoch_loss, dget, dset]
    norm_num

/-! ## C7: argument validation -/

/-- Counterexample to C7 as stated.  The claim treats "validation" as an
accepted phase string (failures are only claimed for phases that are neither
"train" nor "validation"), but the engine's histories are attributes named
`train` and `val`, so `cal_epoch_loss` with phase "validation" fails with an
AttributeError (state unchanged). -/
theorem c7_counterexample :
    (LossStore.init ["grade"]).cal_epoch_loss 0 "validation" (some 10) =
      .error (.attributeError "validation", LossStore.init ["grade"]) := by
  rfl

/-- C7 amended.  The engine's step operations fail before mutating any state:
cal_running_loss fails on a missing batch size and cal_epoch_loss fails on a
missing dataset size (Python assertions), and the accepted phase strings are
"train" and "val" — for every other phase string (including "validation")
cal_epoch_loss fails with an AttributeError at the first history append.  In
each failure the carried state is exactly the input state: no BatchLoss,
RunningLoss or EpochLoss entry of any task has been updated. -/
theorem c7_fail_fast :
    (∀ s : LossStore, s.cal_running_loss none =
        .error (.assertionError "Invalid batch_size: batch_size=None.", s)) ∧
    (∀ (s : LossStore) (epoch : Nat) (phase : String),
        s.cal_epoch_loss epoch phase none =
          .error (.assertionError "Invalid dataset_size: dataset_size=None.", s)) ∧
    (∀ (s : LossStore) (epoch ds : Nat) (phase l0 : String)
       (rest : List String) (r0 : ℚ) (e0 : EpochLoss),
        phase ≠ "train" → phase ≠ "val" →
        s.label_list = l0 :: rest →
        dget s.running_loss l0 = some r0 →
        dget s.epoch_loss l0 = some e0 →
        ds ≠ 0 →
        s.cal_epoch_loss epoch phase (some ds) =
          .error (.attributeError phase, s)) := by
  refine ⟨fun s => rfl, fun s epoch phase => rfl, ?_⟩
  intro s epoch ds phase l0 rest r0 e0 hph1 hph2 hlab hr0 he0 hds
  simp only [LossStore.cal_epoch_loss, hlab, cal_epoch_loss_loop, hr0,
    if_neg hds, he0, EpochLoss.append_epoch_loss, if_neg hph1, if_neg hph2]

/-- Witness for C7's amended theorem: phase "test" on a fresh one-task engine
fails with an AttributeError and an unchanged state. -/
theorem c7_witness :
    (LossStore.init ["grade"]).cal_epoch_loss 0 "test" (some 10) =
      .error (.attributeError "test", LossStore.init ["grade"]) := by
  exact c7_fail_fast.2.2 (LossStore.init ["grade"]) 0 10 "test" "grade" []
    0 {} (by decide) (by decide) (by rfl) (by rfl) (by rfl) (by decide)

/-! ## C8: reset on epoch finalization and reproducibility -/

/-- Two stores agree on everything the batch/running machinery reads or
writes: the label list, the batch losses and the running accumulators (their
epoch-loss histories may differ). -/
def core_eq (s t : LossStore) : Prop :=
  s.label_list = t.label_list ∧ s.batch_loss = t.batch_loss ∧
  s.running_loss = t.running_loss

/-- The first cal_batch_loss loop is driven entirely by the core state. -/
theorem cal_batch_loss_loop1_sim {Net : Type}
    (criterion : ℚ → ℚ → Option ℚ → Option Net → ℚ)
    (outputs labels : Dict ℚ) (period : Option ℚ) (network : Option Net) :
    ∀ (ks : List String) (s t u v : LossStore),
      core_eq s t →
      cal_batch_loss_loop1 criterion outputs labels period network s ks = .ok u →
      cal_batch_loss_loop1 criterion outputs labels period network t ks = .ok v →
      core_eq u v := by
  intro ks
  induction ks with
  | nil =>
      intro s t u v hc h1 h2
      cases h1
      cases h2
      exact hc
  | cons k rest ih =>
      intro s t u v hc h1 h2
      rw [cal_batch_loss_loop1] at h1 h2
      cases ho : dget outputs k <;> simp only [ho] at h1 h2
      · cases h1
      cases hlb : dget labels k <;> simp only [hlb] at h1 h2
      · cases h1
      refine ih _ _ u v ?_ h1 h2
      exact ⟨hc.1, by simp only [hc.2.1], hc.2.2⟩

/-- The second cal_batch_loss loop is a function of the batch losses. -/
theorem cal_batch_loss_loop2_sim :
    ∀ (ks : List String) (s t : LossStore) (acc q q' : ℚ),
      s.batch_loss = t.batch_loss →
      cal_batch_loss_loop2 s acc ks = .ok q →
      cal_batch_loss_loop2 t acc ks = .ok q' → q = q' := by
  intro ks
  induction ks with
  | nil =>
      intro s t acc q q' _ h1 h2
      cases h1
      cases h2
      rfl
  | cons k rest ih =>
      intro s t acc q q' hb h1 h2
      rw [cal_batch_loss_loop2] at h1 h2
      have hd' : dget t.batch_loss k = dget s.batch_loss k := by rw [hb]
      cases hd : dget s.batch_loss k <;>
        simp only [hd] at h1 <;> simp only [hd', hd] at h2
      · cases h1
      rename_i ov
      cases ov <;> simp only [] at h1 h2
      · cases h1
      exact ih s t _ q q' hb h1 h2

/-- cal_batch_loss preserves core agreement between two runs. -/
theorem cal_batch_loss_sim {Net : Type} (s t u v : LossStore)
    (criterion : ℚ → ℚ → Option ℚ → Option Net → ℚ)
    (outputs labels : Dict ℚ) (period : Option ℚ) (network : Option Net)
    (hc : core_eq s t)
    (h1 : s.cal_batch_loss criterion outputs labels period network = .ok u)
    (h2 : t.cal_batch_loss criterion outputs labels period network = .ok v) :
    core_eq u v := by
  rw [LossStore.cal_batch_loss] at h1 h2
  cases hl1 : cal_batch_loss_loop1 criterion outputs labels period network s
      (labels.map Prod.fst) <;> simp only [hl1] at h1
  · cases h1
  cases hl2 : cal_batch_loss_loop1 criterion outputs labels period network t
      (labels.map Prod.fst) <;> simp only [hl2] at h2
  · cases h2
  rename_i s1 t1
  have hc1 := cal_batch_loss_loop1_sim criterion outputs labels period network
    (labels.map Prod.fst) s t s1 t1 hc hl1 hl2
  cases hq1 : cal_batch_loss_loop2 s1 0 (labels.map Prod.fst) <;>
    simp only [hq1] at h1
  · cases h1
  cases hq2 : cal_batch_loss_loop2 t1 0 (labels.map Prod.fst) <;>
    simp only [hq2] at h2
  · cases h2
  rename_i q1 q2
  have hq := cal_batch_loss_loop2_sim (labels.map Prod.fst) s1 t1 0 q1 q2
    hc1.2.1 hq1 hq2
  cases h1
  cases h2
  exact ⟨hc1.1, by simp only [hc1.2.1, hq], hc1.2.2⟩

/-- The running-accumulation loop is driven entirely by the core state. -/
theorem cal_running_loss_loop_sim (b : ℚ) :
    ∀ (ks : List String) (s t u v : LossStore),
      core_eq s t →
      cal_running_loss_loop b s ks = .ok u →
      cal_running_loss_loop b t ks = .ok v →
      core_eq u v := by
  intro ks
  induction ks with
  | nil =>
      intro s t u v hc h1 h2
      cases h1
      cases h2
      exact hc
  | cons k rest ih =>
      intro s t u v hc h1 h2
      rw [cal_running_loss_loop] at h1 h2
      have hr' : dget t.running_loss k = dget s.running_loss k := by rw [hc.2.2]
      have hb' : dget t.batch_loss k = dget s.batch_loss k := by rw [hc.2.1]
      cases hr : dget s.running_loss k <;>
        simp only [hr] at h1 <;> simp only [hr', hr] at h2
      · cases h1
      cases hbv : dget s.batch_loss k <;>
        simp only [hbv] at h1 <;> simp only [hb', hbv] at h2
      · cases h1
      rename_i r ov
      cases ov <;> simp only [] at h1 h2
      · cases h1
      rename_i bl
      have ht' : dget (dset t.running_loss k (r + bl * b)) "total" =
          dget (dset s.running_loss k (r + bl * b)) "total" := by rw [hc.2.2]
      cases ht : dget (dset s.running_loss k (r + bl * b)) "total" <;>
        simp only [ht] at h1 <;> simp only [ht', ht] at h2
      · cases h1
      refine ih _ _ u v ?_ h1 h2
      exact ⟨hc.1, hc.2.1, by simp only [hc.2.2]⟩

/-- cal_running_loss preserves core agreement between two runs. -/
theorem cal_running_loss_sim (s t u v : LossStore) (bs : Option Nat)
    (hc : core_eq s t)
    (h1 : s.cal_running_loss bs = .ok u) (h2 : t.cal_running_loss bs = .ok v) :
    core_eq u v := by
  cases bs with
  | none => cases h1
  | some b =>
      rw [LossStore.cal_running_loss] at h1 h2
      rw [← hc.1] at h2
      exact cal_running_loss_loop_sim (b : ℚ) s.label_list s t u v hc h1 h2

/-- One batch step preserves core agreement between two runs. -/
theorem run_batch_step_sim (s t u v : LossStore) (bl : Dict ℚ) (bs : Nat)
    (hc : core_eq s t)
    (h1 : run_batch_step s bl bs = .ok u) (h2 : run_batch_step t bl bs = .ok v) :
    core_eq u v := by
  rw [run_batch_step] at h1 h2
  cases hb1 : s.cal_batch_loss crit_supplied bl bl none none <;>
    simp only [hb1] at h1
  · cases h1
  cases hb2 : t.cal_batch_loss crit_supplied bl bl none none <;>
    simp only [hb2] at h2
  · cases h2
  rename_i s1 t1
  exact cal_running_loss_sim s1 t1 u v (some bs)
    (cal_batch_loss_sim s t s1 t1 crit_supplied bl bl none none hc hb1 hb2) h1 h2

/-- A whole sequence of batch steps preserves core agreement. -/
theorem run_batches_sim :
    ∀ (steps : List (Dict ℚ × Nat)) (s t u v : LossStore),
      core_eq s t →
      run_batches s steps = .ok u → run_batches t steps = .ok v →
      core_eq u v := by
  intro steps
  induction steps with
  | nil =>
      intro s t u v hc h1 h2
      cases h1
      cases h2
      exact hc
  | cons step rest ih =>
      intro s t u v hc h1 h2
      obtain ⟨bl, bs⟩ := step
      rw [run_batches] at h1 h2
      cases hs1 : run_batch_step s bl bs <;> simp only [hs1] at h1
      · cases h1
      cases hs2 : run_batch_step t bl bs <;> simp only [hs2] at h2
      · cases h2
      rename_i s1 t1
      exact ih s1 t1 u v (run_batch_step_sim s t s1 t1 bl bs hc hs1 hs2) h1 h2

/-- The first cal_batch_loss loop never touches the label list, running
losses or epoch losses. -/
theorem cal_batch_loss_loop1_pres {Net : Type}
    (criterion : ℚ → ℚ → Option ℚ → Option Net → ℚ)
    (outputs labels : Dict ℚ) (period : Option ℚ) (network : Option Net) :
    ∀ (ks : List String) (s u : LossStore),
      cal_batch_loss_loop1 criterion outputs labels period network s ks = .ok u →
      u.label_list = s.label_list ∧ u.running_loss = s.running_loss ∧
      u.epoch_loss = s.epoch_loss := by
  intro ks
  induction ks with
  | nil =>
      intro s u h
      cases h
      exact ⟨rfl, rfl, rfl⟩
  | cons k rest ih =>
      intro s u h
      rw [cal_batch_loss_loop1] at h
      cases ho : dget outputs k <;> simp only [ho] at h
      · cases h
      cases hlb : dget labels k <;> simp only [hlb] at h
      · cases h
      rename_i o lbv
      exact ih { s with batch_loss := dset s.batch_loss k (some (criterion o lbv period network)) } u h

/-- The running-accumulation loop never touches the label list, batch losses
or epoch losses. -/
theorem cal_running_loss_loop_pres (b : ℚ) :
    ∀ (ks : List String) (s u : LossStore),
      cal_running_loss_loop b s ks = .ok u →
      u.label_list = s.label_list ∧ u.batch_loss = s.batch_loss ∧
      u.epoch_loss = s.epoch_loss := by
  intro ks
  induction ks with
  | nil =>
      intro s u h
      cases h
      exact ⟨rfl, rfl, rfl⟩
  | cons k rest ih =>
      intro s u h
      rw [cal_running_loss_loop] at h
      cases hr : dget s.running_loss k <;> simp only [hr] at h
      · cases h
      cases hbv : dget s.batch_loss k <;> simp only [hbv] at h
      · cases h
      rename_i r ov
      cases ov <;> simp only [] at h
      · cases h
      rename_i bl
      cases ht : dget (dset s.running_loss k (r + bl * b)) "total" <;>
        simp only [ht] at h
      · cases h
      rename_i t
      exact ih { s with running_loss := dset (dset s.running_loss k (r + bl * b)) "total" (t + (r + bl * b)) } u h

/-- Batch steps preserve the label list and the epoch-loss histories. -/
theorem run_batches_pres :
    ∀ (steps : List (Dict ℚ × Nat)) (s u : LossStore),
      run_batches s steps = .ok u →
      u.label_list = s.label_list ∧ u.epoch_loss = s.epoch_loss := by
  intro steps
  induction steps with
  | nil =>
      intro s u h
      cases h
      exact ⟨rfl, rfl⟩
  | cons step rest ih =>
      intro s u h
      obtain ⟨bl, bs⟩ := step
      rw [run_batches] at h
      cases hs1 : run_batch_step s bl bs <;> simp only [hs1] at h
      · cases h
      rename_i s1
      obtain ⟨hl1, he1⟩ : s1.label_list = s.label_list ∧ s1.epoch_loss = s.epoch_loss := by
        rw [run_batch_step] at hs1
        cases hb : s.cal_batch_loss crit_supplied bl bl none none <;>
          simp only [hb] at hs1
        · cases hs1
        rename_i sb
        rw [LossStore.cal_batch_loss] at hb
        cases hq1 : cal_batch_loss_loop1 crit_supplied bl bl none none s
            (bl.map Prod.fst) <;> simp only [hq1] at hb
        · cases hb
        rename_i sb1
        cases hq2 : cal_batch_loss_loop2 sb1 0 (bl.map Prod.fst) <;>
          simp only [hq2] at hb
        · cases hb
        cases hb
        obtain ⟨hla, _, hea⟩ := cal_batch_loss_loop1_pres crit_supplied bl bl
          none none (bl.map Prod.fst) s sb1 hq1
        rw [LossStore.cal_running_loss] at hs1
        obtain ⟨hlb, _, heb⟩ := cal_running_loss_loop_pres ((bs : Nat) : ℚ) _ _ _ hs1
        constructor
        · rw [hlb]
          exact hla
        · rw [heb]
          exact hea
      obtain ⟨hl2, he2⟩ := ih s1 u h
      exact ⟨hl2.trans hl1, he2.trans he1⟩

/-- A successful history append makes the appended value the newest loss of
its phase. -/
theorem append_ok_latest (e : EpochLoss) (phase : String) (v : ℚ)
    (e' : EpochLoss) (h : e.append_epoch_loss phase v = .ok e') :
    e'.get_latest_loss phase = .ok v := by
  unfold EpochLoss.append_epoch_loss at h
  by_cases h1 : phase = "train"
  · rw [if_pos h1] at h
    cases h
    simp [EpochLoss.get_latest_loss, h1]
  · rw [if_neg h1] at h
    by_cases h2 : phase = "val"
    · rw [if_pos h2] at h
      cases h
      simp [EpochLoss.get_latest_loss, h1, h2]
    · rw [if_neg h2] at h
      cases h

/-- Inversion of a successful per-label epoch loop: the running losses of the
processed labels were all present (collected in order by `mapM`), the
returned total is the accumulated sum of the appended values, and each
processed label's newest loss for the phase is its running loss divided by
the dataset size. -/
theorem cal_epoch_loss_loop_ok_inv (phase : String) (ds : Nat) :
    ∀ (labels : List String) (s : LossStore) (acc : ℚ) (s1 : LossStore) (tot : ℚ),
      cal_epoch_loss_loop phase ds s acc labels = .ok (s1, tot) →
      s1.label_list = s.label_list ∧ s1.batch_loss = s.batch_loss ∧
      s1.running_loss = s.running_loss ∧
      (∀ k, k ∉ labels → dget s1.epoch_loss k = dget s.epoch_loss k) ∧
      ∃ rs, labels.mapM (dget s.running_loss) = some rs ∧
        tot = acc + (rs.map (fun r => r / (ds : ℚ))).sum ∧
        (∀ l r, l ∈ labels → dget s.running_loss l = some r →
          ∃ e', dget s1.epoch_loss l = some e' ∧
            e'.get_latest_loss phase = .ok (r / (ds : ℚ))) := by
  intro labels
  induction labels with
  | nil =>
      intro s acc s1 tot h
      cases h
      refine ⟨rfl, rfl, rfl, fun _ _ => rfl, [], by rfl, by simp, by simp⟩
  | cons l rest ih =>
      intro s acc s1 tot h
      rw [cal_epoch_loss_loop] at h
      cases hr : dget s.running_loss l <;> simp only [hr] at h
      · cases h
      rename_i r
      by_cases hds : ds = 0
      · rw [if_pos hds] at h
        cases h
      rw [if_neg hds] at h
      cases he : dget s.epoch_loss l <;> simp only [he] at h
      · cases h
      rename_i el
      cases ha : el.append_epoch_loss phase (r / (ds : ℚ)) <;> simp only [ha] at h
      · cases h
      rename_i el'
      obtain ⟨hlab, hbatch, hrun, hpres, rs', hmap, htot, hlat⟩ := ih _ _ _ _ h
      have hsrun : ({ s with epoch_loss := dset s.epoch_loss l el' } : LossStore).running_loss
          = s.running_loss := rfl
      refine ⟨hlab, hbatch, hrun, ?_, r :: rs', ?_, ?_, ?_⟩
      · intro k hk
        have h1 : k ∉ rest := fun hx => hk (List.mem_cons_of_mem l hx)
        have h2 : l ≠ k := fun hx => hk (hx ▸ List.mem_cons_self l rest)
        rw [hpres k h1]
        show dget (dset s.epoch_loss l el') k = _
        rw [dget_dset_ne _ _ _ _ h2]
      · rw [List.mapM_cons, hr]
        rw [hsrun] at hmap
        rw [hmap]
        rfl
      · rw [htot, List.map_cons, List.sum_cons, add_assoc]
      · intro l0 r0 hl0 hr0
        rcases List.mem_cons.mp hl0 with hx | hx
        · subst hx
          by_cases hin : l0 ∈ rest
          · exact hlat l0 r0 hin (by rw [hsrun]; exact hr0)
          · have hr0r : r0 = r := by
              rw [hr0] at hr
              exact (Option.some.injEq _ _).mp hr
            subst hr0r
            refine ⟨el', ?_, append_ok_latest el phase _ el' ha⟩
            rw [hpres l0 hin]
            show dget (dset s.epoch_loss l0 el') l0 = _
            exact dget_dset _ _ _
        · exact hlat l0 r0 hx (by rw [hsrun]; exact hr0)

/-- Collecting the newest per-label losses: if every label's newest loss is
its running loss divided by the dataset size, the collected list is the
pointwise division of the collected running losses. -/
theorem mapM_latest_of_running (u : LossStore) (ph : String) (ds : Nat)
    (run : Dict ℚ) :
    ∀ (labels : List String) (rs : List ℚ),
      labels.mapM (dget run) = some rs →
      (∀ l r, l ∈ labels → dget run l = some r →
          latest_epoch_loss u l ph = .ok (r / (ds : ℚ))) →
      labels.mapM (fun l => latest_epoch_loss u l ph) =
        .ok (rs.map (fun r => r / (ds : ℚ))) := by
  intro labels
  induction labels with
  | nil =>
      intro rs hm _
      rw [List.mapM_nil] at hm ⊢
      cases hm
      rfl
  | cons l rest ih =>
      intro rs hm hlat
      rw [List.mapM_cons] at hm
      cases hd : dget run l <;> rw [hd] at hm
      · cases hm
      rename_i r
      cases hre : rest.mapM (dget run) <;> rw [hre] at hm
      · cases hm
      rename_i rs'
      cases hm
      have h1 : latest_epoch_loss u l ph = .ok (r / (ds : ℚ)) :=
        hlat l r (List.mem_cons_self l rest) hd
      have h2 := ih rs' hre
        (fun l' r' hl' hr' => hlat l' r' (List.mem_cons_of_mem l hl') hr')
      rw [List.mapM_cons, h1, h2]
      rfl

/-- Appending the `total` entry to a collected per-label loss report. -/
theorem mapM_latest_append (u : LossStore) (ph : String) :
    ∀ (labels : List String) (vals : List ℚ) (tv : ℚ),
      labels.mapM (fun l => latest_epoch_loss u l ph) = .ok vals →
      latest_epoch_loss u "total" ph = .ok tv →
      (labels ++ ["total"]).mapM (fun l => latest_epoch_loss u l ph) =
        .ok (vals ++ [tv]) := by
  intro labels
  induction labels with
  | nil =>
      intro vals tv h1 h2
      rw [List.mapM_nil] at h1
      cases h1
      simp only [List.nil_append, List.mapM_cons, h2, List.mapM_nil]
      rfl
  | cons l rest ih =>
      intro vals tv h1 h2
      rw [List.mapM_cons] at h1
      cases hd : latest_epoch_loss u l ph <;> rw [hd] at h1
      · cases h1
      rename_i v
      cases hre : rest.mapM (fun l => latest_epoch_loss u l ph) <;> rw [hre] at h1
      · cases h1
      rename_i vs
      cases h1
      have := ih vs tv hre h2
      rw [List.cons_append, List.mapM_cons, hd, this]
      rfl

/-- Inversion of a successful cal_epoch_loss: the batch and running
accumulators are reset to their initial state, the label list is preserved,
and the newest per-label and `total` epoch losses for the finalized phase are
the per-label running losses divided by the dataset size followed by their
mean. -/
theorem cal_epoch_loss_ok_report (t u : LossStore) (e : Nat) (ph : String)
    (ds : Nat) (htot : "total" ∉ t.label_list)
    (h : t.cal_epoch_loss e ph (some ds) = .ok u) :
    u.label_list = t.label_list ∧
    u.batch_loss = init_batch_loss t.label_list ∧
    u.running_loss = init_running_loss t.label_list ∧
    ∃ rs, t.label_list.mapM (dget t.running_loss) = some rs ∧
      epoch_report u ph = .ok ((rs.map (fun r => r / (ds : ℚ)))
        ++ [(0 + (rs.map (fun r => r / (ds : ℚ))).sum)
              / (t.label_list.length : ℚ)]) := by
  rw [LossStore.cal_epoch_loss] at h
  cases hl : cal_epoch_loss_loop ph ds t 0 t.label_list <;> simp only [hl] at h
  · cases h
  rename_i p
  obtain ⟨s1, tot⟩ := p
  by_cases hlen : t.label_list.length = 0
  · rw [if_pos hlen] at h
    cases h
  rw [if_neg hlen] at h
  obtain ⟨hlab1, hbatch1, hrun1, hpres1, rs, hmap, htoteq, hlat1⟩ :=
    cal_epoch_loss_loop_ok_inv ph ds t.label_list t 0 s1 tot hl
  cases hdt : dget s1.epoch_loss "total" <;> simp only [hdt] at h
  · cases h
  rename_i etot
  cases ha : etot.append_epoch_loss ph (tot / (t.label_list.length : ℚ)) <;>
    simp only [ha] at h
  · cases h
  rename_i etot'
  have assemble : ∀ s3 : LossStore,
      s3.label_list =
        ({ s1 with epoch_loss := dset s1.epoch_loss "total" etot' } : LossStore).label_list →
      (∀ k ph', latest_epoch_loss s3 k ph' =
        latest_epoch_loss
          ({ s1 with epoch_loss := dset s1.epoch_loss "total" etot' } : LossStore) k ph') →
      u = { s3 with batch_loss := init_batch_loss s3.label_list,
                    running_loss := init_running_loss s3.label_list } →
      u.label_list = t.label_list ∧
      u.batch_loss = init_batch_loss t.label_list ∧
      u.running_loss = init_running_loss t.label_list ∧
      ∃ rs', t.label_list.mapM (dget t.running_loss) = some rs' ∧
        epoch_report u ph = .ok ((rs'.map (fun r => r / (ds : ℚ)))
          ++ [(0 + (rs'.map (fun r => r / (ds : ℚ))).sum)
                / (t.label_list.length : ℚ)]) := by
    intro s3 hl3 hlat3 hu
    have hulab : u.label_list = t.label_list := by
      rw [hu]
      show s3.label_list = t.label_list
      rw [hl3]
      exact hlab1
    have hulat : ∀ k ph', latest_epoch_loss u k ph' =
        latest_epoch_loss
          ({ s1 with epoch_loss := dset s1.epoch_loss "total" etot' } : LossStore) k ph' := by
      intro k ph'
      rw [← hlat3 k ph', hu]
      rfl
    refine ⟨hulab, ?_, ?_, rs, hmap, ?_⟩
    · rw [hu]
      show init_batch_loss s3.label_list = _
      rw [hl3]
      show init_batch_loss s1.label_list = _
      rw [hlab1]
    · rw [hu]
      show init_running_loss s3.label_list = _
      rw [hl3]
      show init_running_loss s1.label_list = _
      rw [hlab1]
    · have hfun : (fun l => latest_epoch_loss u l ph) =
          (fun l => latest_epoch_loss
            ({ s1 with epoch_loss := dset s1.epoch_loss "total" etot' } : LossStore) l ph) :=
        funext (fun l => hulat l ph)
      have hlabels : t.label_list.mapM (fun l => latest_epoch_loss
          ({ s1 with epoch_loss := dset s1.epoch_loss "total" etot' } : LossStore) l ph) =
          .ok (rs.map (fun r => r / (ds : ℚ))) := by
        refine mapM_latest_of_running _ ph ds t.running_loss t.label_list rs hmap ?_
        intro l r hli hri
        have hlne : "total" ≠ l := fun hx => htot (hx ▸ hli)
        obtain ⟨e', he', hle'⟩ := hlat1 l r hli hri
        unfold latest_epoch_loss
        show (match dget (dset s1.epoch_loss "total" etot') l with
              | none => Except.error (Err.keyError l)
              | some e0 => e0.get_latest_loss ph) = _
        rw [dget_dset_ne _ _ _ _ hlne, he']
        exact hle'
      have htotal : latest_epoch_loss
          ({ s1 with epoch_loss := dset s1.epoch_loss "total" etot' } : LossStore) "total" ph =
          .ok ((0 + (rs.map (fun r => r / (ds : ℚ))).sum)
                / (t.label_list.length : ℚ)) := by
        unfold latest_epoch_loss
        show (match dget (dset s1.epoch_loss "total" etot') "total" with
              | none => Except.error (Err.keyError "total")
              | some e0 => e0.get_latest_loss ph) = _
        rw [dget_dset]
        show etot'.get_latest_loss ph = _
        rw [append_ok_latest etot ph _ etot' ha, htoteq]
      rw [epoch_report, hulab, hfun]
      exact mapM_latest_append _ ph t.label_list _ _ hlabels htotal
  by_cases hv : ph = "val"
  · rw [if_pos hv] at h
    cases hcb : check_best_loop e
        { s1 with epoch_loss := dset s1.epoch_loss "total" etot' }
        (t.label_list ++ ["total"]) <;> simp only [hcb] at h
    · cases h
    rename_i s3
    cases h
    obtain ⟨hl3, _, _, hlat3⟩ := check_best_loop_preserves_latest e _ _ _ hcb
    exact assemble s3 hl3 hlat3 rfl
  · rw [if_neg hv] at h
    cases h
    exact assemble _ rfl (fun _ _ => rfl) rfl

/-- C8.  Every successful cal_epoch_loss resets BatchLoss and RunningLoss to
their initial state (every accumulator 0.0, every batch loss empty), so the
per-task and `total` epoch losses a subsequent epoch computes from a given
sequence of batch losses are identical to those computed from the same
sequence on a freshly initialized engine, regardless of the previous epoch's
accumulated totals. -/
theorem c8_reset_idempotence :
    (∀ (s s' : LossStore) (epoch : Nat) (phase : String) (ds : Option Nat),
        s.cal_epoch_loss epoch phase ds = .ok s' →
        s'.label_list = s.label_list ∧
        s'.batch_loss = init_batch_loss s.label_list ∧
        s'.running_loss = init_running_loss s.label_list) ∧
    (∀ (s s' : LossStore) (epoch : Nat) (phase : String) (ds : Option Nat)
       (steps : List (Dict ℚ × Nat)) (e2 : Nat) (ph2 : String) (ds2 : Nat)
       (t1 t2 u1 u2 : LossStore),
        "total" ∉ s.label_list →
        s.cal_epoch_loss epoch phase ds = .ok s' →
        run_batches s' steps = .ok t1 →
        run_batches (LossStore.init s.label_list) steps = .ok t2 →
        t1.cal_epoch_loss e2 ph2 (some ds2) = .ok u1 →
        t2.cal_epoch_loss e2 ph2 (some ds2) = .ok u2 →
        epoch_report u1 ph2 = epoch_report u2 ph2) := by
  have hreset : ∀ (s s' : LossStore) (epoch : Nat) (phase : String)
      (ds : Option Nat), s.cal_epoch_loss epoch phase ds = .ok s' →
      s'.label_list = s.label_list ∧
      s'.batch_loss = init_batch_loss s.label_list ∧
      s'.running_loss = init_running_loss s.label_list := by
    intro s s' epoch phase ds h
    cases ds with
    | none => cases h
    | some d =>
        rw [LossStore.cal_epoch_loss] at h
        cases hl : cal_epoch_loss_loop phase d s 0 s.label_list <;>
          simp only [hl] at h
        · cases h
        rename_i p
        obtain ⟨s1, tot⟩ := p
        by_cases hlen : s.label_list.length = 0
        · rw [if_pos hlen] at h
          cases h
        rw [if_neg hlen] at h
        obtain ⟨hlab1, _, _, _, _⟩ :=
          cal_epoch_loss_loop_ok_inv phase d s.label_list s 0 s1 tot hl
        cases hdt : dget s1.epoch_loss "total" <;> simp only [hdt] at h
        · cases h
        rename_i etot
        cases ha : etot.append_epoch_loss phase (tot / (s.label_list.length : ℚ)) <;>
          simp only [ha] at h
        · cases h
        rename_i etot'
        by_cases hv : phase = "val"
        · rw [if_pos hv] at h
          cases hcb : check_best_loop epoch
              { s1 with epoch_loss := dset s1.epoch_loss "total" etot' }
              (s.label_list ++ ["total"]) <;> simp only [hcb] at h
          · cases h
          rename_i s3
          cases h
          obtain ⟨hl3, _, _, _⟩ := check_best_loop_preserves_latest epoch _ _ _ hcb
          have hfinal : s3.label_list = s.label_list := by
            rw [hl3]
            exact hlab1
          exact ⟨hfinal, by rw [show ({ s3 with
              batch_loss := init_batch_loss s3.label_list,
              running_loss := init_running_loss s3.label_list } : LossStore).batch_loss
                = init_batch_loss s3.label_list from rfl, hfinal],
            by rw [show ({ s3 with
              batch_loss := init_batch_loss s3.label_list,
              running_loss := init_running_loss s3.label_list } : LossStore).running_loss
                = init_running_loss s3.label_list from rfl, hfinal]⟩
        · rw [if_neg hv] at h
          cases h
          exact ⟨hlab1, by rw [show init_batch_loss
              ({ s1 with epoch_loss := dset s1.epoch_loss "total" etot' } : LossStore).label_list
                = init_batch_loss s1.label_list from rfl, hlab1],
            by rw [show init_running_loss
              ({ s1 with epoch_loss := dset s1.epoch_loss "total" etot' } : LossStore).label_list
                = init_running_loss s1.label_list from rfl, hlab1]⟩
  refine ⟨hreset, ?_⟩
  intro s s' epoch phase ds steps e2 ph2 ds2 t1 t2 u1 u2 htot h hr1 hr2 h1 h2
  obtain ⟨hslab, hsbatch, hsrun⟩ := hreset s s' epoch phase ds h
  have hcs : core_eq s' (LossStore.init s.label_list) := ⟨hslab, hsbatch, hsrun⟩
  have hct := run_batches_sim steps s' (LossStore.init s.label_list) t1 t2 hcs hr1 hr2
  obtain ⟨hlt1, _⟩ := run_batches_pres steps s' t1 hr1
  have ht1lab : t1.label_list = s.label_list := hlt1.trans hslab
  have htott1 : "total" ∉ t1.label_list := ht1lab ▸ htot
  have htott2 : "total" ∉ t2.label_list := hct.1 ▸ htott1
  obtain ⟨_, _, _, rs1, hm1, hrep1⟩ :=
    cal_epoch_loss_ok_report t1 u1 e2 ph2 ds2 htott1 h1
  obtain ⟨_, _, _, rs2, hm2, hrep2⟩ :=
    cal_epoch_loss_ok_report t2 u2 e2 ph2 ds2 htott2 h2
  have hm2' : t1.label_list.mapM (dget t1.running_loss) = some rs2 := by
    rw [hct.1, hct.2.2]
    exact hm2
  rw [hm1] at hm2'
  have hrs : rs1 = rs2 := Option.some.inj hm2'
  rw [hrep1, hrep2, hrs, hct.1]

/-- Witness for C8: the concrete one-task epoch finalization of the C2
scenario leaves batch and running losses in their freshly initialized
state, via the reset clause of the theorem. -/
theorem c8_witness :
    ({ label_list := ["grade"]
       batch_loss := [("grade", none), ("total", none)]
       running_loss := [("grade", 0), ("total", 0)]
       epoch_loss := [("grade", { train := [2] }), ("total", { train := [2] })] }
        : LossStore).label_list = ["grade"] ∧
    ({ label_list := ["grade"]
       batch_loss := [("grade", none), ("total", none)]
       running_loss := [("grade", 0), ("total", 0)]
       epoch_loss := [("grade", { train := [2] }), ("total", { train := [2] })] }
        : LossStore).batch_loss = init_batch_loss ["grade"] ∧
    ({ label_list := ["grade"]
       batch_loss := [("grade", none), ("total", none)]
       running_loss := [("grade", 0), ("total", 0)]
       epoch_loss := [("grade", { train := [2] }), ("total", { train := [2] })] }
        : LossStore).running_loss = init_running_loss ["grade"] := by
  refine c8_reset_idempotence.1
    { label_list := ["grade"]
      batch_loss := [("grade", some 2), ("total", some 2)]
      running_loss := [("grade", 4), ("total", 4)]
      epoch_loss := init_epoch_loss ["grade"] } _ 0 "train" (some 2) ?_
  simp [LossStore.cal_epoch_loss, cal_epoch_loss_loop, check_best_loop,
    EpochLoss.append_epoch_loss, init_batch_loss, init_running_loss,
    init_epoch_loss, dget, dset]
  norm_num

/-! ## Model composer (src/config/model.py) -/

/-- Torch modules that the composer inspects or builds.  Opaque numeric
behaviour (weights, activations) lives behind the abstract `applyM`
evaluation function passed to the forward passes. -/
inductive Module where
  | linear (in_features out_features : Nat)
  | relu
  | dropout (p : ℚ) (inplace : Bool)
  | identityModule
  | layerNorm2d (dim : Nat)
  | flattenLayer
  | seq (items : List (String × Module))

/-- nn.Sequential semantics: apply the layers in order. -/
def seq_forward {T : Type} (applyM : Module → T → T)
    (layers : List (String × Module)) (x : T) : T :=
  layers.foldl (fun acc item => applyM item.2 acc) x

/-- The dict comprehension shared by every Multi class's forward:
`{name: heads[name](z) for name in names}`. -/
def fork_forward {T : Type} (heads : List (String × Module))
    (applyM : Module → T → T) (z : T) :
    List String → Except Err (List (String × T))
  | [] => .ok []
  | name :: rest =>
      match dget heads name with
      | some md =>
          match fork_forward heads applyM z rest with
          | .ok outs => .ok ((name, applyM md z) :: outs)
          | .error e => .error e
      | none => .error (.keyError name)

/-- MLP (model.py lines 20-45): hidden layers [256, 256, 256] with ReLU and
dropout 0.2, then an output layer stored under the key `fc`. -/
structure MLP where
  num_inputs : Nat
  num_outputs : Nat
  mlp : List (String × Module)

/-- The layer-construction loop of MLP._build: `layers_size` is consumed from
the front; while at least two sizes remain after the pop, a linear/relu/
dropout block keyed by the iteration index is emitted, and the final pair
becomes the `fc` output layer. -/
def mlp_build_layers (i : Nat) : List Nat → List (String × Module)
  | inS :: outS :: rest =>
      if rest.length + 1 ≥ 2 then
        (toString i ++ "_linear", .linear inS outS) ::
        (toString i ++ "_relu", .relu) ::
        (toString i ++ "_dropout", .dropout (1/5) false) ::
        mlp_build_layers (i + 1) (outS :: rest)
      else
        [("fc", .linear inS outS)]
  | _ => []

/-- MLP.__init__ with hidden_layers_size [256, 256, 256]. -/
def MLP.make (num_inputs num_outputs : Nat) : MLP :=
  { num_inputs := num_inputs
    num_outputs := num_outputs
    mlp := mlp_build_layers 0 ([num_inputs] ++ [256, 256, 256] ++ [num_outputs]) }

/-- MLP_Multi (model.py lines 54-89): one fresh `fc_<label>` linear head per
label, input width read from the base MLP's `fc` layer, which is then
replaced by DUMMY_LAYER (nn.Identity). -/
structure MLP_Multi where
  mlp : List (String × Module)
  label_num_classes : Dict Nat
  label_list : List String
  fc_names : List String
  fc_multi : List (String × Module)

/-- MLP_Multi.__init__. -/
def MLP_Multi.make (base : MLP) (label_num_classes : Dict Nat) :
    Except Err MLP_Multi :=
  match dget base.mlp "fc" with
  | some (.linear input_size_fc _) =>
      .ok { mlp := dset base.mlp "fc" .identityModule
            label_num_classes := label_num_classes
            label_list := label_num_classes.map Prod.fst
            fc_names := (label_num_classes.map Prod.fst).map (fun l => "fc_" ++ l)
            fc_multi := label_num_classes.map
              (fun p => ("fc_" ++ p.1, Module.linear input_size_fc p.2)) }
  | some _ => .error (.attributeError "in_features")
  | none => .error (.attributeError "fc")

/-- MLP_Multi.forward: run the (fc-replaced) trunk once, then fork through
every head. -/
def MLP_Multi.forward {T : Type} (m : MLP_Multi) (applyM : Module → T → T)
    (inputs : T) : Except Err (List (String × T)) :=
  fork_forward m.fc_multi applyM (seq_forward applyM m.mlp inputs) m.fc_names

/-- Result of mlp_net (model.py lines 261-269): a plain single-output MLP for
one label, a multi-head MLP_Multi otherwise. -/
inductive MlpNetResult where
  | plainMLP (m : MLP)
  | multiMLP (m : MLP_Multi)

/-- mlp_net: build the base MLP for the first label's class count, and wrap
it in MLP_Multi only when there is more than one label. -/
def mlp_net (num_inputs : Nat) (label_num_classes : Dict Nat) :
    Except Err MlpNetResult :=
  match label_num_classes.map Prod.fst with
  | [] => .error .indexError
  | l0 :: restNames =>
      match dget label_num_classes l0 with
      | none => .error (.keyError l0)
      | some num_outputs_first_label =>
          if (l0 :: restNames).length > 1 then
            match MLP_Multi.make (MLP.make num_inputs num_outputs_first_label)
                label_num_classes with
            | .ok m => .ok (.multiMLP m)
            | .error e => .error e
          else
            .ok (.plainMLP (MLP.make num_inputs num_outputs_first_label))

/-- The per-task head keys of an mlp_net result: a plain MLP carries no head
dictionary at all. -/
def mlpNetHeadNames : MlpNetResult → List String
  | .plainMLP _ => []
  | .multiMLP m => m.fc_multi.map Prod.fst

/-- A torchvision ResNet as seen by the composer: an opaque feature trunk and
an `fc` final projection attribute. -/
structure ResNetBackbone (T : Type) where
  features : T → T
  fc : Module

/-- ResNet_Multi (model.py lines 93-116). -/
structure ResNet_Multi (T : Type) where
  extractor : ResNetBackbone T
  label_num_classes : Dict Nat
  label_list : List String
  fc_names : List String
  fc_multi : List (String × Module)

/-- ResNet_Multi.__init__: `fc_<label>` heads of the extractor's `fc` input
width; the original `fc` is replaced by DUMMY_LAYER. -/
def ResNet_Multi.make {T : Type} (base : ResNetBackbone T)
    (label_num_classes : Dict Nat) : Except Err (ResNet_Multi T) :=
  match base.fc with
  | .linear input_size_fc _ =>
      .ok { extractor := { base with fc := .identityModule }
            label_num_classes := label_num_classes
            label_list := label_num_classes.map Prod.fst
            fc_names := (label_num_classes.map Prod.fst).map (fun l => "fc_" ++ l)
            fc_multi := label_num_classes.map
              (fun p => ("fc_" ++ p.1, Module.linear input_size_fc p.2)) }
  | _ => .error (.attributeError "in_features")

/-- ResNet_Multi.forward. -/
def ResNet_Multi.forward {T : Type} (m : ResNet_Multi T)
    (applyM : Module → T → T) (x : T) : Except Err (List (String × T)) :=
  fork_forward m.fc_multi applyM
    (applyM m.extractor.fc (m.extractor.features x)) m.fc_names

/-- A torchvision DenseNet: opaque feature trunk and a `classifier` final
projection attribute. -/
structure DenseNetBackbone (T : Type) where
  features : T → T
  classifier : Module

/-- DenseNet_Multi (model.py lines 120-143). -/
structure DenseNet_Multi (T : Type) where
  extractor : DenseNetBackbone T
  label_num_classes : Dict Nat
  label_list : List String
  fc_names : List String
  fc_multi : List (String × Module)

/-- DenseNet_Multi.__init__. -/
def DenseNet_Multi.make {T : Type} (base : DenseNetBackbone T)
    (label_num_classes : Dict Nat) : Except Err (DenseNet_Multi T) :=
  match base.classifier with
  | .linear input_size_fc _ =>
      .ok { extractor := { base with classifier := .identityModule }
            label_num_classes := label_num_classes
            label_list := label_num_classes.map Prod.fst
            fc_names := (label_num_classes.map Prod.fst).map (fun l => "fc_" ++ l)
            fc_multi := label_num_classes.map
              (fun p => ("fc_" ++ p.1, Module.linear input_size_fc p.2)) }
  | _ => .error (.attributeError "in_features")

/-- DenseNet_Multi.forward. -/
def DenseNet_Multi.forward {T : Type} (m : DenseNet_Multi T)
    (applyM : Module → T → T) (x : T) : Except Err (List (String × T)) :=
  fork_forward m.fc_multi applyM
    (applyM m.extractor.classifier (m.extractor.features x)) m.fc_names

/-- A torchvision EfficientNet: opaque feature trunk and a classifier
Sequential of dropout followed by a linear projection. -/
structure EfficientNetBackbone (T : Type) where
  features : T → T
  classifier : Module

/-- EfficientNet_Multi (model.py lines 147-182): per-label heads
`block_<label>`, each a fresh Sequential of a non-inplace dropout (with the
classifier's probability) and a linear layer; the classifier is replaced by
DUMMY_LAYER. -/
structure EfficientNet_Multi (T : Type) where
  extractor : EfficientNetBackbone T
  label_num_classes : Dict Nat
  label_list : List String
  block_names : List String
  fc_multi : List (String × Module)

/-- EfficientNet_Multi.__init__: reads `classifier[0].p` and
`classifier[1].in_features`. -/
def EfficientNet_Multi.make {T : Type} (base : EfficientNetBackbone T)
    (label_num_classes : Dict Nat) : Except Err (EfficientNet_Multi T) :=
  match base.classifier with
  | .seq ((_, .dropout probability_dropout _) :: (_, .linear input_size_fc _) :: _) =>
      .ok { extractor := { base with classifier := .identityModule }
            label_num_classes := label_num_classes
            label_list := label_num_classes.map Prod.fst
            block_names := (label_num_classes.map Prod.fst).map (fun l => "block_" ++ l)
            fc_multi := label_num_classes.map
              (fun p => ("block_" ++ p.1, Module.seq
                [("0_" ++ p.1, Module.dropout probability_dropout false),
                 ("1_" ++ p.1, Module.linear input_size_fc p.2)])) }
  | _ => .error (.attributeError "classifier")

/-- EfficientNet_Multi.forward. -/
def EfficientNet_Multi.forward {T : Type} (m : EfficientNet_Multi T)
    (applyM : Module → T → T) (x : T) : Except Err (List (String × T)) :=
  fork_forward m.fc_multi applyM
    (applyM m.extractor.classifier (m.extractor.features x)) m.block_names

/-- A torchvision ConvNeXt: opaque feature trunk and a classifier Sequential
of norm, flatten, linear. -/
structure ConvNeXtBackbone (T : Type) where
  features : T → T
  classifier : Module

/-- ConvNeXt_Multi (model.py lines 187-222): per-label heads `block_<label>`,
each sharing the classifier's first two transforms by reference and adding a
fresh linear layer; the classifier is replaced by DUMMY_LAYER. -/
structure ConvNeXt_Multi (T : Type) where
  extractor : ConvNeXtBackbone T
  label_num_classes : Dict Nat
  label_list : List String
  block_names : List String
  fc_multi : List (String × Module)

/-- ConvNeXt_Multi.__init__: reads `classifier[2].in_features` and copies
`classifier[0]` and `classifier[1]` into every head. -/
def ConvNeXt_Multi.make {T : Type} (base : ConvNeXtBackbone T)
    (label_num_classes : Dict Nat) : Except Err (ConvNeXt_Multi T) :=
  match base.classifier with
  | .seq (c0 :: c1 :: (_, .linear input_size_fc _) :: _) =>
      .ok { extractor := { base with classifier := .identityModule }
            label_num_classes := label_num_classes
            label_list := label_num_classes.map Prod.fst
            block_names := (label_num_classes.map Prod.fst).map (fun l => "block_" ++ l)
            fc_multi := label_num_classes.map
              (fun p => ("block_" ++ p.1, Module.seq
                [("0_" ++ p.1, c0.2), ("1_" ++ p.1, c1.2),
                 ("2_" ++ p.1, Module.linear input_size_fc p.2)])) }
  | _ => .error (.attributeError "classifier")

/-- ConvNeXt_Multi.forward. -/
def ConvNeXt_Multi.forward {T : Type} (m : ConvNeXt_Multi T)
    (applyM : Module → T → T) (x : T) : Except Err (List (String × T)) :=
  fork_forward m.fc_multi applyM
    (applyM m.extractor.classifier (m.extractor.features x)) m.block_names

/-- A torchvision ViT: opaque feature trunk and a `heads` Sequential holding
the `head` linear projection. -/
structure ViTBackbone (T : Type) where
  features : T → T
  heads : Module

/-- ViT_Multi (model.py lines 227-258): per-label heads `heads_<label>`, each
a fresh Sequential holding one `head` linear layer; the original `heads` is
replaced by DUMMY_LAYER. -/
structure ViT_Multi (T : Type) where
  extractor : ViTBackbone T
  label_num_classes : Dict Nat
  label_list : List String
  head_names : List String
  head_multi : List (String × Module)

/-- ViT_Multi.__init__: reads `heads.head.in_features`. -/
def ViT_Multi.make {T : Type} (base : ViTBackbone T)
    (label_num_classes : Dict Nat) : Except Err (ViT_Multi T) :=
  match base.heads with
  | .seq hs =>
      match dget hs "head" with
      | some (.linear input_size_fc _) =>
          .ok { extractor := { base with heads := .identityModule }
                label_num_classes := label_num_classes
                label_list := label_num_classes.map Prod.fst
                head_names := (label_num_classes.map Prod.fst).map
                  (fun l => "heads_" ++ l)
                head_multi := label_num_classes.map
                  (fun p => ("heads_" ++ p.1, Module.seq
                    [("head", Module.linear input_size_fc p.2)])) }
      | _ => .error (.attributeError "head")
  | _ => .error (.attributeError "heads")

/-- ViT_Multi.forward. -/
def ViT_Multi.forward {T : Type} (m : ViT_Multi T)
    (applyM : Module → T → T) (x : T) : Except Err (List (String × T)) :=
  fork_forward m.head_multi applyM
    (applyM m.extractor.heads (m.extractor.features x)) m.head_names

/-! ## C3: head composition invariants -/

/-- A key listed among a dict's keys can be looked up. -/
theorem dget_mem_fst {α : Type} :
    ∀ (d : List (String × α)) (k : String),
      k ∈ d.map Prod.fst → ∃ v, dget d k = some v := by
  intro d
  induction d with
  | nil =>
      intro k hk
      simp at hk
  | cons p tl ih =>
      intro k hk
      by_cases h : p.1 = k
      · exact ⟨p.2, by simp [dget, h]⟩
      · have : k ∈ tl.map Prod.fst := by
          rcases List.mem_cons.mp hk with hx | hx
          · exact absurd hx.symm h
          · exact hx
        obtain ⟨v, hv⟩ := ih k this
        exact ⟨v, by simp [dget, h, hv]⟩

/-- Forking through a complete head dictionary succeeds and the key set of
the returned mapping is exactly the requested name list. -/
theorem fork_forward_keys {T : Type} (heads : List (String × Module))
    (applyM : Module → T → T) (z : T) :
    ∀ names : List String,
      (∀ n ∈ names, ∃ md, dget heads n = some md) →
      ∃ outs, fork_forward heads applyM z names = .ok outs ∧
        outs.map Prod.fst = names := by
  intro names
  induction names with
  | nil => exact fun _ => ⟨[], rfl, rfl⟩
  | cons n rest ih =>
      intro h
      obtain ⟨md, hmd⟩ := h n (List.mem_cons_self n rest)
      obtain ⟨outs, ho, hk⟩ := ih (fun n' hn' => h n' (List.mem_cons_of_mem n hn'))
      refine ⟨(n, applyM md z) :: outs, ?_, by simp [hk]⟩
      rw [fork_forward, hmd, ho]

/-- String concatenation cancels on the left, so the `<prefix>_<task name>`
naming convention is injective in the task name. -/
theorem string_append_left_cancel (p a b : String) (h : p ++ a = p ++ b) :
    a = b := by
  apply String.ext
  have h2 := congrArg String.data h
  rw [String.data_append, String.data_append] at h2
  exact List.append_cancel_left h2

/-- Counterexample to C3 as stated.  The claim covers every non-empty
TaskSet, but for a singleton TaskSet mlp_net returns the plain single-output
MLP: no per-task head dictionary exists (head-name list empty instead of
["fc_grade"]) and the backbone's final `fc` projection is still the original
linear layer, not a no-op passthrough. -/
theorem c3_counterexample :
    mlp_net 10 [("grade", 3)] = .ok (.plainMLP (MLP.make 10 3)) ∧
    mlpNetHeadNames (.plainMLP (MLP.make 10 3)) = [] ∧
    dget (MLP.make 10 3).mlp "fc" = some (.linear 256 3) := by
  exact ⟨rfl, rfl, rfl⟩

/-- C3 amended.  For every TaskSet with at least two tasks, composing the
tabular MLP backbone via mlp_net, or any of the image backbone families via
their Multi wrappers, produces exactly one head per task with keys
`<prefix>_<task name>` (prefix `fc_` for MLP/ResNet/DenseNet, `block_` for
EfficientNet/ConvNeXt, `heads_` for ViT), in 1:1 correspondence with the
task names (prefixing is injective), with the backbone's original final
projection replaced by the no-op identity, and the forward pass returning a
mapping whose key set equals exactly the head-name list. -/
theorem c3_multi_head_composition :
    (∀ (num_inputs : Nat) (p q : String × Nat) (rest : Dict Nat),
        ∃ m : MLP_Multi, mlp_net num_inputs (p :: q :: rest) = .ok (.multiMLP m) ∧
          m.fc_names = ((p :: q :: rest).map Prod.fst).map (fun l => "fc_" ++ l) ∧
          m.fc_multi.map Prod.fst = m.fc_names ∧
          dget m.mlp "fc" = some .identityModule ∧
          ∀ (T : Type) (applyM : Module → T → T) (x : T),
            ∃ outs, m.forward applyM x = .ok outs ∧
              outs.map Prod.fst = m.fc_names) ∧
    (∀ (T : Type) (base : ResNetBackbone T) (lnc : Dict Nat) (f o : Nat),
        base.fc = .linear f o →
        ∃ m, ResNet_Multi.make base lnc = .ok m ∧
          m.fc_names = (lnc.map Prod.fst).map (fun l => "fc_" ++ l) ∧
          m.fc_multi.map Prod.fst = m.fc_names ∧
          m.extractor.fc = .identityModule ∧
          ∀ (applyM : Module → T → T) (x : T),
            ∃ outs, m.forward applyM x = .ok outs ∧
              outs.map Prod.fst = m.fc_names) ∧
    (∀ (T : Type) (base : DenseNetBackbone T) (lnc : Dict Nat) (f o : Nat),
        base.classifier = .linear f o →
        ∃ m, DenseNet_Multi.make base lnc = .ok m ∧
          m.fc_names = (lnc.map Prod.fst).map (fun l => "fc_" ++ l) ∧
          m.fc_multi.map Prod.fst = m.fc_names ∧
          m.extractor.classifier = .identityModule ∧
          ∀ (applyM : Module → T → T) (x : T),
            ∃ outs, m.forward applyM x = .ok outs ∧
              outs.map Prod.fst = m.fc_names) ∧
    (∀ (T : Type) (base : EfficientNetBackbone T) (lnc : Dict Nat)
       (k0 k1 : String) (pr : ℚ) (ip : Bool) (f o : Nat)
       (tail : List (String × Module)),
        base.classifier = .seq ((k0, .dropout pr ip) :: (k1, .linear f o) :: tail) →
        ∃ m, EfficientNet_Multi.make base lnc = .ok m ∧
          m.block_names = (lnc.map Prod.fst).map (fun l => "block_" ++ l) ∧
          m.fc_multi.map Prod.fst = m.block_names ∧
          m.extractor.classifier = .identityModule ∧
          ∀ (applyM : Module → T → T) (x : T),
            ∃ outs, m.forward applyM x = .ok outs ∧
              outs.map Prod.fst = m.block_names) ∧
    (∀ (T : Type) (base : ConvNeXtBackbone T) (lnc : Dict Nat)
       (c0 c1 : String × Module) (k2 : String) (f o : Nat)
       (tail : List (String × Module)),
        base.classifier = .seq (c0 :: c1 :: (k2, .linear f o) :: tail) →
        ∃ m, ConvNeXt_Multi.make base lnc = .ok m ∧
          m.block_names = (lnc.map Prod.fst).map (fun l => "block_" ++ l) ∧
          m.fc_multi.map Prod.fst = m.block_names ∧
          m.extractor.classifier = .identityModule ∧
          ∀ (applyM : Module → T → T) (x : T),
            ∃ outs, m.forward applyM x = .ok outs ∧
              outs.map Prod.fst = m.block_names) ∧
    (∀ (T : Type) (base : ViTBackbone T) (lnc : Dict Nat)
       (hs : List (String × Module)) (f o : Nat),
        base.heads = .seq hs → dget hs "head" = some (.linear f o) →
        ∃ m, ViT_Multi.make base lnc = .ok m ∧
          m.head_names = (lnc.map Prod.fst).map (fun l => "heads_" ++ l) ∧
          m.head_multi.map Prod.fst = m.head_names ∧
          m.extractor.heads = .identityModule ∧
          ∀ (applyM : Module → T → T) (x : T),
            ∃ outs, m.forward applyM x = .ok outs ∧
              outs.map Prod.fst = m.head_names) ∧
    (∀ pfx a b : String, pfx ++ a = pfx ++ b → a = b) := by
  refine ⟨?_, ?_, ?_, ?_, ?_, ?_, string_append_left_cancel⟩
  · intro num_inputs p q rest
    obtain ⟨l0, n0⟩ := p
    have hd0 : dget ((l0, n0) :: q :: rest) l0 = some n0 := by simp [dget]
    have hgt : (l0 :: q.1 :: rest.map Prod.fst).length > 1 := by
      simp only [List.length_cons]
      omega
    refine ⟨{ mlp := dset (MLP.make num_inputs n0).mlp "fc" .identityModule
              label_num_classes := (l0, n0) :: q :: rest
              label_list := ((l0, n0) :: q :: rest).map Prod.fst
              fc_names := (((l0, n0) :: q :: rest).map Prod.fst).map (fun l => "fc_" ++ l)
              fc_multi := ((l0, n0) :: q :: rest).map (fun p => ("fc_" ++ p.1, Module.linear 256 p.2)) },
      ?_, rfl, ?_, ?_, ?_⟩
    · show mlp_net num_inputs ((l0, n0) :: q :: rest) = _
      simp only [mlp_net, List.map_cons, hd0, if_pos hgt]
      rfl
    · simp [List.map_map]
    · exact dget_dset _ _ _
    · intro T applyM x
      refine fork_forward_keys _ applyM _ _ ?_
      intro nm hnm
      refine dget_mem_fst _ nm ?_
      simpa [List.map_map] using hnm
  · intro T base lnc f o hbase
    refine ⟨{ extractor := { base with fc := .identityModule }
              label_num_classes := lnc
              label_list := lnc.map Prod.fst
              fc_names := (lnc.map Prod.fst).map (fun l => "fc_" ++ l)
              fc_multi := lnc.map (fun p => ("fc_" ++ p.1, Module.linear f p.2)) },
      ?_, rfl, ?_, ?_, ?_⟩
    · simp only [ResNet_Multi.make, hbase]
    · simp [List.map_map]
    · rfl
    · intro applyM x
      refine fork_forward_keys _ applyM _ _ ?_
      intro nm hnm
      refine dget_mem_fst _ nm ?_
      simpa [List.map_map] using hnm
  · intro T base lnc f o hbase
    refine ⟨{ extractor := { base with classifier := .identityModule }
              label_num_classes := lnc
              label_list := lnc.map Prod.fst
              fc_names := (lnc.map Prod.fst).map (fun l => "fc_" ++ l)
              fc_multi := lnc.map (fun p => ("fc_" ++ p.1, Module.linear f p.2)) },
      ?_, rfl, ?_, ?_, ?_⟩
    · simp only [DenseNet_Multi.make, hbase]
    · simp [List.map_map]
    · rfl
    · intro applyM x
      refine fork_forward_keys _ applyM _ _ ?_
      intro nm hnm
      refine dget_mem_fst _ nm ?_
      simpa [List.map_map] using hnm
  · intro T base lnc k0 k1 pr ip f o tail hbase
    refine ⟨{ extractor := { base with classifier := .identityModule }
              label_num_classes := lnc
              label_list := lnc.map Prod.fst
              block_names := (lnc.map Prod.fst).map (fun l => "block_" ++ l)
              fc_multi := lnc.map (fun p => ("block_" ++ p.1, Module.seq
                [("0_" ++ p.1, Module.dropout pr false), ("1_" ++ p.1, Module.linear f p.2)])) },
      ?_, rfl, ?_, ?_, ?_⟩
    · simp only [EfficientNet_Multi.make, hbase]
    · simp [List.map_map]
    · rfl
    · intro applyM x
      refine fork_forward_keys _ applyM _ _ ?_
      intro nm hnm
      refine dget_mem_fst _ nm ?_
      simpa [List.map_map] using hnm
  · intro T base lnc c0 c1 k2 f o tail hbase
    refine ⟨{ extractor := { base with classifier := .identityModule }
              label_num_classes := lnc
              label_list := lnc.map Prod.fst
              block_names := (lnc.map Prod.fst).map (fun l => "block_" ++ l)
              fc_multi := lnc.map (fun p => ("block_" ++ p.1, Module.seq
                [("0_" ++ p.1, c0.2), ("1_" ++ p.1, c1.2), ("2_" ++ p.1, Module.linear f p.2)])) },
      ?_, rfl, ?_, ?_, ?_⟩
    · simp only [ConvNeXt_Multi.make, hbase]
    · simp [List.map_map]
    · rfl
    · intro applyM x
      refine fork_forward_keys _ applyM _ _ ?_
      intro nm hnm
      refine dget_mem_fst _ nm ?_
      simpa [List.map_map] using hnm
  · intro T base lnc hs f o hbase hhead
    refine ⟨{ extractor := { base with heads := .identityModule }
              label_num_classes := lnc
              label_list := lnc.map Prod.fst
              head_names := (lnc.map Prod.fst).map (fun l => "heads_" ++ l)
              head_multi := lnc.map (fun p => ("heads_" ++ p.1, Module.seq
                [("head", Module.linear f p.2)])) },
      ?_, rfl, ?_, ?_, ?_⟩
    · simp only [ViT_Multi.make, hbase, hhead]
    · simp [List.map_map]
    · rfl
    · intro applyM x
      refine fork_forward_keys _ applyM _ _ ?_
      intro nm hnm
      refine dget_mem_fst _ nm ?_
      simpa [List.map_map] using hnm

/-- Witness for C3's amended theorem: composing a two-task MLP network with
TaskSet {grade: 3, malignant: 2}, via the theorem's MLP clause at concrete
inputs. -/
theorem c3_witness :
    ∃ m : MLP_Multi, mlp_net 10 [("grade", 3), ("malignant", 2)] =
        .ok (.multiMLP m) ∧
      m.fc_names = (([("grade", 3), ("malignant", 2)] : Dict Nat).map
        Prod.fst).map (fun l => "fc_" ++ l) ∧
      m.fc_multi.map Prod.fst = m.fc_names ∧
      dget m.mlp "fc" = some .identityModule ∧
      ∀ (T : Type) (applyM : Module → T → T) (x : T),
        ∃ outs, m.forward applyM x = .ok outs ∧
          outs.map Prod.fst = m.fc_names :=
  c3_multi_head_composition.1 10 ("grade", 3) ("malignant", 2) []

/-! ## C5: fusion model normalization (MLPCNN_Net) -/

/-- MLPCNN_Net.normalize_cnn_output (model.py lines 368-376): batch-wise
min-max normalization of the auxiliary likelihoods.  In the degenerate
min = max case the code returns `outputs_cnn - min`, i.e. all zeros.  In the
generic case the normalized tensor is assigned to the misspelled local
variable `outputs_cnn__normed` (double underscore), so the subsequent
`return outputs_cnn_normed` reads an unassigned name and raises NameError.
Calling .max()/.min() on an empty tensor raises RuntimeError. -/
def normalize_cnn_output (outputs_cnn : List ℚ) : Except Err (List ℚ) :=
  match outputs_cnn.max?, outputs_cnn.min? with
  | some mx, some mn =>
      if mn = mx then .ok (outputs_cnn.map (fun x => x - mn))
      else .error (.nameError "outputs_cnn_normed")
  | _, _ => .error .runtimeError

/-- The column selection `outputs_cnn[:, 1]` of MLPCNN_Net.forward: each
example's positive-class likelihood; a missing column raises IndexError. -/
def select_likelihood_col : List (List ℚ) → Except Err (List ℚ)
  | [] => .ok []
  | row :: rest =>
      match row.get? 1 with
      | some x =>
          match select_likelihood_col rest with
          | .ok xs => .ok (x :: xs)
          | .error e => .error e
      | none => .error .indexError

/-- MLPCNN_Net.forward (model.py lines 378-391): run the auxiliary CNN, keep
each example's positive-class likelihood (column index 1 =
cnn_num_outputs_pass_to_mlp), min-max normalize the batch, concatenate the
normalized scalar onto each example's tabular inputs (torch.cat on dim 1,
which requires equal batch sizes), and run the fused vectors through the
tabular network. -/
def MLPCNN_forward {Img Out : Type} (cnn : Img → List (List ℚ))
    (mlp : List (List ℚ) → Out) (inputs : List (List ℚ)) (images : Img) :
    Except Err Out :=
  match select_likelihood_col (cnn images) with
  | .error e => .error e
  | .ok likeli =>
      match normalize_cnn_output likeli with
      | .error e => .error e
      | .ok normed =>
          if inputs.length = normed.length then
            .ok (mlp (List.zipWith (fun v x => v ++ [x]) inputs normed))
          else .error .runtimeError

/-! ## C9: configuration errors (conv_net and create_model) -/

/-- The backbone names conv_net recognizes (model.py lines 274-321). -/
def recognized_cnn_names : List String :=
  ["B0", "B2", "B4", "B6", "ResNet18", "ResNet", "DenseNet",
   "ConvNeXtTiny", "ConvNeXtSmall", "ConvNeXtBase", "ConvNeXtLarge",
   "ViTb16", "ViTb32", "ViTl16", "ViTl32"]

/-- What conv_net returns: a single-output model, a family Multi wrapper, or
(on a hypothetical recognized name matching no family) the bare constructor
returned uncalled. -/
inductive ConvNetResult where
  | single (cnn_name : String) (num_classes : Nat)
  | multi (cnn_name : String) (family : String) (label_num_classes : Dict Nat)
  | factory (cnn_name : String)

/-- conv_net (model.py lines 274-349).  An unrecognized name is only logged
(`logger.error`), so execution continues with the local `cnn` unbound and the
first later use of `cnn` raises UnboundLocalError; with more than one label
the name is dispatched on its prefix to a Multi family, otherwise the model
is built with the first label's class count (IndexError on an empty
TaskSet). -/
def conv_net (cnn_name : String) (label_num_classes : Dict Nat) :
    Except Err ConvNetResult :=
  if (label_num_classes.map Prod.fst).length > 1 then
    if cnn_name.startsWith "ResNet" then
      if cnn_name ∈ recognized_cnn_names then
        .ok (.multi cnn_name "ResNet" label_num_classes)
      else .error .unboundLocalError
    else if cnn_name.startsWith "B" then
      if cnn_name ∈ recognized_cnn_names then
        .ok (.multi cnn_name "EfficientNet" label_num_classes)
      else .error .unboundLocalError
    else if cnn_name.startsWith "DenseNet" then
      if cnn_name ∈ recognized_cnn_names then
        .ok (.multi cnn_name "DenseNet" label_num_classes)
      else .error .unboundLocalError
    else if cnn_name.startsWith "ConvNeXt" then
      if cnn_name ∈ recognized_cnn_names then
        .ok (.multi cnn_name "ConvNeXt" label_num_classes)
      else .error .unboundLocalError
    else if cnn_name.startsWith "ViT" then
      if cnn_name ∈ recognized_cnn_names then
        .ok (.multi cnn_name "ViT" label_num_classes)
      else .error .unboundLocalError
    else
      if cnn_name ∈ recognized_cnn_names then .ok (.factory cnn_name)
      else .error .unboundLocalError
  else
    match label_num_classes.map Prod.fst with
    | [] => .error .indexError
    | l0 :: _ =>
        match dget label_num_classes l0 with
        | none => .error (.keyError l0)
        | some num_outputs_first_label =>
            if cnn_name ∈ recognized_cnn_names then
              .ok (.single cnn_name num_outputs_first_label)
            else .error .unboundLocalError

/-- The model classes create_model dispatches to (framework.py). -/
inductive TaskModelKind where
  | mlpModel
  | cvModel
  | fusionModel
  | mlpDeepSurv
  | cvDeepSurv
  | fusionDeepSurv
deriving Repr, DecidableEq

/-- create_model (framework.py lines 517-559): dispatch on the task kind and
the mlp/net modality flags; an unknown task or a configuration with neither
backbone raises ValueError. -/
def create_model (task : String) (mlp net : Option String) :
    Except Err TaskModelKind :=
  if task = "classification" ∨ task = "regression" then
    match mlp, net with
    | some _, none => .ok .mlpModel
    | none, some _ => .ok .cvModel
    | some _, some _ => .ok .fusionModel
    | none, none => .error (.valueError "Invalid model type")
  else if task = "deepsurv" then
    match mlp, net with
    | some _, none => .ok .mlpDeepSurv
    | none, some _ => .ok .cvDeepSurv
    | some _, some _ => .ok .fusionDeepSurv
    | none, none => .error (.valueError "Invalid model type")
  else .error (.valueError "Invalid task")

/-- True exactly on a successful result. -/
def is_ok {ε α : Type} : Except ε α → Bool
  | .ok _ => true
  | .error _ => false

/-! ## C10: get_layer_output -/

/-- Python str.endswith, modelled on the character lists of the strings. -/
def str_endswith (s pat : String) : Bool :=
  pat.data.isSuffixOf s.data

/-- get_layer_output (model.py lines 422-426): take the first output key that
ends with the label name ([0] on the filtered list raises IndexError when
nothing matches) and return its value. -/
def get_layer_output {α : Type} (outputs_multi : List (String × α))
    (label_name : String) : Except Err α :=
  match (outputs_multi.map Prod.fst).filter (fun k => str_endswith k label_name) with
  | [] => .error .indexError
  | layer_name :: _ =>
      match dget outputs_multi layer_name with
      | some v => .ok v
      | none => .error (.keyError layer_name)

/-- C5 (code bug).  The claim (and the code's own comments) say the fusion
model min-max normalizes the auxiliary likelihoods batch-wise, with the
degenerate equal-min/max case defined as all zeros.  The degenerate case does
return zeros ([0.2, 0.2, 0.2] normalizes to [0, 0, 0], never NaN, and the
normalized scalar is concatenated per example onto the tabular inputs), but
for every batch whose maximum exceeds its minimum the code raises NameError:
the normalized tensor is assigned to the misspelled variable
`outputs_cnn__normed` while `outputs_cnn_normed` is returned. -/
theorem c5_normalize_name_error :
    normalize_cnn_output [1/5, 1/2] = .error (.nameError "outputs_cnn_normed") ∧
    normalize_cnn_output [1/5, 1/5, 1/5] = .ok [0, 0, 0] ∧
    MLPCNN_forward (fun _ : Unit => [[9/10, 1/5], [3/5, 1/5], [1/10, 1/5]])
        (fun v => v) [[1], [2], [3]] () = .ok [[1, 0], [2, 0], [3, 0]] ∧
    MLPCNN_forward (fun _ : Unit => [[9/10, 1/5], [3/5, 1/2]])
        (fun v => v) [[1], [2]] () = .error (.nameError "outputs_cnn_normed") := by
  refine ⟨?_, ?_, ?_, ?_⟩ <;>
    norm_num [normalize_cnn_output, MLPCNN_forward, select_likelihood_col,
      List.max?, List.min?]

/-- C9.  create_model succeeds exactly for task kinds classification,
regression and deepsurv with at least one of the mlp/net backbones
specified, and fails (ValueError) otherwise; conv_net fails for every
unrecognized backbone family name (the code only logs the bad name, after
which the unbound local `cnn` raises UnboundLocalError at its first use). -/
theorem c9_configuration_errors :
    (∀ (task : String) (mlp net : Option String),
        is_ok (create_model task mlp net) = true ↔
          ((task = "classification" ∨ task = "regression" ∨ task = "deepsurv") ∧
            ¬(mlp = none ∧ net = none))) ∧
    (∀ (cnn_name : String) (lnc : Dict Nat),
        cnn_name ∉ recognized_cnn_names →
        is_ok (conv_net cnn_name lnc) = false) := by
  constructor
  · intro task mlp net
    by_cases h1 : task = "classification" ∨ task = "regression"
    · have hval : task = "classification" ∨ task = "regression" ∨
          task = "deepsurv" := h1.imp id Or.inl
      cases mlp <;> cases net <;> simp [create_model, h1, hval, is_ok]
    · have h1a : task ≠ "classification" := fun hx => h1 (Or.inl hx)
      have h1b : task ≠ "regression" := fun hx => h1 (Or.inr hx)
      by_cases h2 : task = "deepsurv"
      · subst h2
        cases mlp <;> cases net <;> simp [create_model, is_ok]
      · simp [create_model, h1a, h1b, h2, is_ok]
  · intro cnn_name lnc hmem
    by_cases hlen : (lnc.map Prod.fst).length > 1
    · simp only [conv_net, if_pos hlen, if_neg hmem]
      split_ifs <;> rfl
    · simp only [conv_net, if_neg hlen]
      cases hm : lnc.map Prod.fst with
      | nil => rfl
      | cons l0 tl =>
          cases hd : dget lnc l0 <;> simp [hd, is_ok, hmem]

/-- Witness for C9: an unrecognized backbone name fails, via the theorem's
conv_net clause at concrete inputs. -/
theorem c9_witness :
    is_ok (conv_net "Inception" [("grade", 3), ("malignant", 2)]) = false :=
  c9_configuration_errors.2 "Inception" [("grade", 3), ("malignant", 2)]
    (by decide)

/-- C10.  get_layer_output returns the value of the first key (in mapping
order) that ends with the requested label name; when exactly one key matches
this is the requested task's prediction, but when one task name is a proper
suffix of another, the first matching head wins — e.g. requesting "grade"
from a mapping whose first entry is "fc_subgrade" returns the subgrade
head's prediction. -/
theorem c10_get_layer_output :
    (∀ (α : Type) (outs : List (String × α)) (label : String),
        (outs.map Prod.fst).Nodup →
        get_layer_output outs label =
          match (outs.filter (fun p => str_endswith p.1 label)).head? with
          | some p => .ok p.2
          | none => .error .indexError) ∧
    get_layer_output [("fc_subgrade", (1 : ℚ)), ("fc_grade", 2)] "grade" =
      .ok 1 := by
  constructor
  · intro α outs label
    induction outs with
    | nil =>
        intro _
        rfl
    | cons p tl ih =>
        intro hnd
        obtain ⟨k, v⟩ := p
        have hnd2 : (k :: tl.map Prod.fst).Nodup := by simpa using hnd
        have hk_notin : k ∉ tl.map Prod.fst := (List.nodup_cons.mp hnd2).1
        have hnd' : (tl.map Prod.fst).Nodup := (List.nodup_cons.mp hnd2).2
        by_cases hk : str_endswith k label = true
        · unfold get_layer_output
          simp [List.filter_cons, hk, dget]
        · have hk2 : str_endswith k label = false := by
            simpa using hk
          have hLHS : get_layer_output ((k, v) :: tl) label =
              get_layer_output tl label := by
            unfold get_layer_output
            simp only [List.map_cons, List.filter_cons, hk2,
              Bool.false_eq_true, if_false]
            cases hft : (tl.map Prod.fst).filter (fun k => str_endswith k label) with
            | nil => rfl
            | cons ln restf =>
                have hln : ln ∈ tl.map Prod.fst :=
                  List.mem_of_mem_filter (hft ▸ List.mem_cons_self ln restf)
                have hkln : k ≠ ln := fun hx => hk_notin (hx ▸ hln)
                simp [dget, hkln]
          rw [hLHS, ih hnd']
          simp [List.filter_cons, hk2]
  · rfl

/-- Witness for C10: the unique-match case, requesting "malignant" from a
two-head mapping, via the theorem at concrete inputs. -/
theorem c10_witness :
    get_layer_output [("fc_grade", (1 : ℚ)), ("fc_malignant", 2)] "malignant" =
      match (([("fc_grade", (1 : ℚ)), ("fc_malignant", 2)]).filter
          (fun p => str_endswith p.1 "malignant")).head? with
      | some p => .ok p.2
      | none => .error .indexError :=
  c10_get_layer_output.1 ℚ [("fc_grade", (1 : ℚ)), ("fc_malignant", 2)]
    "malignant" (by decide)

end Nervus
